import Mathlib

/-!
# Drive reconciler of `pkg/node/node_controller.go`

A shallow embedding of `DirectCSIDriveListener.Update` and of the library
functions it calls, followed by theorems about it.

* Go strings are Lean `String`s. The path functions only look for the ASCII
  bytes `/` and `.`, which never occur inside a multi-byte UTF-8 sequence, so
  working on characters instead of bytes changes nothing.
* `int64` is `Int` wrapped explicitly by `toInt64`; `uint64` is `Nat`.
* A Go `error` is modelled by its message (`GoError`); `nil` is `none`.
* A `[]string` is a `List String`; `nil` and the empty slice are both `[]`.
* The external collaborators (device primitives, the store, the working
  directory) are the fields of `Env`, functions over an arbitrary world state
  `σ` that is threaded through `Update`. Every call `Update` makes to a device
  primitive or to the store is logged, with its answer, in the trace of the
  `Outcome`; `os.Getwd` only reads the world and is not logged.
* `glog` calls have no influence on control flow and are left out.
-/

set_option linter.unusedVariables false

namespace DirectCSI

/-! ## Data model -/

/-- A Go `error` value, identified by the text of its `Error()` method. -/
structure GoError where
  msg : String
deriving DecidableEq, Repr

/-- The Go call `fmt.Errorf(prefix + "%v", e)`: a new error whose message is the
prefix followed by `e.Error()`. -/
def Errorf (pre : String) (e : GoError) : GoError :=
  ⟨pre ++ e.msg⟩

/-- Modelled from the spec: the type `v1alpha1.DriveStatus` is declared outside
`src/`. The spec gives `status: enum {New, Online, …}`; `Other` stands for
the remaining values. -/
inductive DriveStatus where
  | New
  | Online
  | Other (tag : String)
deriving DecidableEq, Repr

/-- Modelled from the spec: the type `v1alpha1.RequestedFormat` is declared
outside `src/`. The fields are the ones `Update` reads and writes, the
desired-state payload `{filesystem, mountpoint, mountOptions, force}`. -/
structure RequestedFormat where
  Filesystem : String
  Mountpoint : String
  Mountoptions : List String
  Force : Bool
deriving DecidableEq, Repr

/-- Modelled from the spec: the type `v1alpha1.DirectCSIDrive` is declared
outside `src/`. The fields are those of the spec's data model, under the
names `Update` uses (`Name` is `ObjectMeta.Name`, `DirectCSIOwned` is
`claimed`, `FreeCapacity` is an `int64`). -/
structure DirectCSIDrive where
  Name : String
  OwnerNode : String
  DirectCSIOwned : Bool
  Path : String
  Filesystem : String
  Mountpoint : String
  MountOptions : List String
  FreeCapacity : Int
  DriveStatus : DriveStatus
  RequestedFormat : RequestedFormat
deriving DecidableEq, Repr

/-- The two fields of `syscall.Statfs_t` that `Update` reads: `Bsize` is an
`int64`, `Bavail` a `uint64`. -/
structure Statfs_t where
  Bsize : Int
  Bavail : Nat
deriving DecidableEq, Repr

/-! ## Machine integers -/

/-- Conversion to `int64`: the value modulo `2^64`, read as two's complement. -/
def toInt64 (n : Int) : Int :=
  (n + 2 ^ 63) % 2 ^ 64 - 2 ^ 63

/-- Lines 138-139: `availBlocks := int64(stat.Bavail)` and
`int64(stat.Bsize) * availBlocks`, an `int64` multiplication. -/
def freeCapacity (stat : Statfs_t) : Int :=
  let availBlocks := toInt64 (stat.Bavail : Int)
  toInt64 (toInt64 stat.Bsize * availBlocks)

/-! ## `path/filepath` (unix) -/

/-- `os.IsPathSeparator` on unix. -/
def isSep (c : Char) : Bool := c == '/'

/-- The inner loop of the `..` case of `filepath.Clean`, after `out.w--`:
`for out.w > dotdot && !os.IsPathSeparator(out.index(out.w)) { out.w-- }`.
The argument and the result are the write index `w`. -/
def backtrack (buf : List Char) (dotdot : Nat) : Nat → Nat
  | 0 => 0
  | w + 1 =>
    if w + 1 > dotdot && !isSep (buf.getD (w + 1) '/') then backtrack buf dotdot w
    else w + 1

/-- The main loop `for r < n { switch ... }` of `filepath.Clean`. `path` is the
unread part `path[r:]`, `out` the bytes written so far (`out.w = out.length`).
Every iteration reads at least one byte, so a fuel equal to the length of the
unread part is never exhausted. -/
def cleanLoop (rooted : Bool) : Nat → List Char → List Char → Nat → List Char
  | 0, _, out, _ => out
  | _ + 1, [], out, _ => out
  | fuel + 1, c :: rest, out, dotdot =>
    if isSep c then
      -- empty path element
      cleanLoop rooted fuel rest out dotdot
    else if c = '.' ∧ (rest = [] ∨ isSep (rest.getD 0 '/')) then
      -- . element
      cleanLoop rooted fuel rest out dotdot
    else if c = '.' ∧ rest.getD 0 '/' = '.' ∧ (rest.length = 1 ∨ isSep (rest.getD 1 '/')) then
      -- .. element: remove to last separator
      if out.length > dotdot then
        cleanLoop rooted fuel (rest.drop 1)
          (out.take (backtrack out dotdot (out.length - 1))) dotdot
      else if !rooted then
        let out1 := if out.length > 0 then out ++ ['/'] else out
        let out2 := out1 ++ ['.', '.']
        cleanLoop rooted fuel (rest.drop 1) out2 out2.length
      else
        cleanLoop rooted fuel (rest.drop 1) out dotdot
    else
      -- real path element: add slash if needed, copy element
      let out1 :=
        if (rooted && out.length != 1) || (!rooted && out.length != 0) then out ++ ['/']
        else out
      cleanLoop rooted fuel (rest.dropWhile (fun x => !isSep x))
        (out1 ++ c :: rest.takeWhile (fun x => !isSep x)) dotdot

/-- `filepath.Clean` on unix (no volume name), on the characters of the path. -/
def cleanChars (path : List Char) : List Char :=
  match path with
  | [] => ['.']
  | c :: rest =>
    let out :=
      if isSep c then cleanLoop true rest.length rest ['/'] 1
      else cleanLoop false (c :: rest).length (c :: rest) [] 0
    if out.length = 0 then ['.'] else out

/-- `filepath.Clean`. -/
def Clean (path : String) : String :=
  String.mk (cleanChars path.data)

/-- `filepath.Join`: the elements from the first non-empty one on, joined with
the separator and cleaned; the empty string if all are empty. -/
def Join (elem : List String) : String :=
  match elem.dropWhile (fun e => e = "") with
  | [] => ""
  | e :: es => Clean (String.intercalate "/" (e :: es))

/-- `filepath.IsAbs` on unix: `strings.HasPrefix(path, "/")`. -/
def IsAbs (path : String) : Bool :=
  match path.data with
  | c :: _ => c == '/'
  | [] => false

/-- `filepath.Abs` on unix: a rooted path is cleaned; any other path is joined
to the working directory, and the error of `os.Getwd` is returned if it has
one. -/
def Abs (getwd : Except GoError String) (path : String) : Except GoError String :=
  if IsAbs path then .ok (Clean path)
  else
    match getwd with
    | .error err => .error err
    | .ok wd => .ok (Join [wd, path])

/-! ## External collaborators and effects -/

/-- The collaborators `Update` calls, over a world state `σ`:
`os.Getwd` (read by `filepath.Abs`), `UnmountIfMounted`, `FormatDevice`,
`MountDevice`, `syscall.Statfs` and
`directCSIClient.DirectCSIDrives().Update`. A primitive returning `error`
answers `none` for `nil`. -/
structure Env (σ : Type) where
  Getwd : σ → Except GoError String
  UnmountIfMounted : String → σ → Option GoError × σ
  FormatDevice : String → String → Bool → σ → Option GoError × σ
  MountDevice : String → String → String → List String → σ → Option GoError × σ
  Statfs : String → σ → Except GoError Statfs_t × σ
  StoreUpdate : DirectCSIDrive → σ → Except GoError DirectCSIDrive × σ

deriving instance DecidableEq for Except

/-- One logged call, with its arguments and its answer. -/
inductive Event where
  | unmount (path : String) (res : Option GoError)
  | update (submitted : DirectCSIDrive) (res : Except GoError DirectCSIDrive)
  | format (path fsType : String) (force : Bool) (res : Option GoError)
  | mount (path target fsType : String) (opts : List String) (res : Option GoError)
  | statfs (path : String) (res : Except GoError Statfs_t)
deriving DecidableEq

/-- What `Update` leaves behind: the returned error (`none` for `nil`), the
calls it made in order, and the world after them. -/
structure Outcome (σ : Type) where
  err : Option GoError
  trace : List Event
  world : σ
deriving DecidableEq

/-- The state of a phase of `Update`: it has returned (`exit`, with the
returned error) or goes on with the record now in hand (`cont`). -/
inductive Flow where
  | exit (err : Option GoError)
  | cont (new : DirectCSIDrive)

/-! ## `DirectCSIDriveListener.Update` -/

/-- Line 96: `new.Mountpoint = ""`, the record persisted after the unmount. -/
def unmounted (new : DirectCSIDrive) : DirectCSIDrive :=
  { new with Mountpoint := "" }

/-- Lines 110-114: the assignments made after a successful format. -/
def formatted (fsType : String) (new : DirectCSIDrive) : DirectCSIDrive :=
  { new with
    Filesystem := fsType
    DriveStatus := DriveStatus.New
    RequestedFormat := { new.RequestedFormat with Filesystem := "" }
    Mountpoint := ""
    MountOptions := [] }

/-- Lines 121-124: the requested mountpoint, or, when there is none,
`filepath.Join(string(filepath.Separator), "mnt", "direct-csi", new.ObjectMeta.Name)`. -/
def mountTarget (new : DirectCSIDrive) : String :=
  if new.RequestedFormat.Mountpoint = "" then Join ["/", "mnt", "direct-csi", new.Name]
  else new.RequestedFormat.Mountpoint

/-- Lines 130-133: the assignments made after a successful mount at
`mountPoint`. -/
def mounted (mountPoint : String) (new : DirectCSIDrive) : DirectCSIDrive :=
  { new with
    Mountpoint := mountPoint
    RequestedFormat :=
      { new.RequestedFormat with Force := false, Mountpoint := "", Mountoptions := [] } }

/-- Lines 138-139: `new.FreeCapacity = int64(stat.Bsize) * availBlocks`. -/
def probed (stat : Statfs_t) (new : DirectCSIDrive) : DirectCSIDrive :=
  { new with FreeCapacity := freeCapacity stat }

/-- Lines 81-100: a mounted drive is left alone without `force`; with it, it
is unmounted at its absolute mount path and `Mountpoint = ""` is persisted. -/
def unmountPhase {σ : Type} (env : Env σ) (isForceOptionSet : Bool)
    (new : DirectCSIDrive) (s : σ) : Flow × List Event × σ :=
  if new.Mountpoint ≠ "" then
    if !isForceOptionSet then (.exit none, [], s)
    else
      match Abs (env.Getwd s) new.Mountpoint with
      | .error fErr => (.exit (some fErr), [], s)
      | .ok abMountPath =>
        match env.UnmountIfMounted abMountPath s with
        | (some err, s1) => (.exit (some err), [.unmount abMountPath (some err)], s1)
        | (none, s1) =>
          match env.StoreUpdate (unmounted new) s1 with
          | (.error uErr, s2) =>
            (.exit (some uErr),
              [.unmount abMountPath none, .update (unmounted new) (.error uErr)], s2)
          | (.ok new1, s2) =>
            (.cont new1, [.unmount abMountPath none, .update (unmounted new) (.ok new1)], s2)
  else (.cont new, [], s)

/-- Lines 79-118: the format phase, run when `fsType != ""`. -/
def formatPhase {σ : Type} (env : Env σ) (fsType : String)
    (new : DirectCSIDrive) (s : σ) : Flow × List Event × σ :=
  if fsType ≠ "" then
    let isForceOptionSet := new.RequestedFormat.Force
    match unmountPhase env isForceOptionSet new s with
    | (.exit r, tr, s1) => (.exit r, tr, s1)
    | (.cont new1, tr, s1) =>
      if new1.Filesystem ≠ "" ∧ !isForceOptionSet then (.exit none, tr, s1)
      else
        match env.FormatDevice new1.Path fsType isForceOptionSet s1 with
        | (some fErr, s2) =>
          (.exit (some (Errorf "Failed to format the device: " fErr)),
            tr ++ [.format new1.Path fsType isForceOptionSet (some fErr)], s2)
        | (none, s2) =>
          match env.StoreUpdate (formatted fsType new1) s2 with
          | (.error uErr, s3) =>
            (.exit (some uErr),
              tr ++ [.format new1.Path fsType isForceOptionSet none,
                     .update (formatted fsType new1) (.error uErr)], s3)
          | (.ok new2, s3) =>
            (.cont new2,
              tr ++ [.format new1.Path fsType isForceOptionSet none,
                     .update (formatted fsType new1) (.ok new2)], s3)
  else (.cont new, [], s)

/-- Lines 120-147: the mount phase, run when the record in hand has no
mountpoint, and the final `return nil`. -/
def mountPhase {σ : Type} (env : Env σ) (fsType : String)
    (new : DirectCSIDrive) (s : σ) : Option GoError × List Event × σ :=
  if new.Mountpoint = "" then
    let mountPoint := mountTarget new
    match env.MountDevice new.Path mountPoint fsType new.RequestedFormat.Mountoptions s with
    | (some err, s1) =>
      (some (Errorf "Failed to mount the device: " err),
        [.mount new.Path mountPoint fsType new.RequestedFormat.Mountoptions (some err)], s1)
    | (none, s1) =>
      match env.Statfs (mounted mountPoint new).Mountpoint s1 with
      | (.error err, s2) =>
        (some err,
          [.mount new.Path mountPoint fsType new.RequestedFormat.Mountoptions none,
           .statfs (mounted mountPoint new).Mountpoint (.error err)], s2)
      | (.ok stat, s2) =>
        match env.StoreUpdate (probed stat (mounted mountPoint new)) s2 with
        | (.error uErr, s3) =>
          (some uErr,
            [.mount new.Path mountPoint fsType new.RequestedFormat.Mountoptions none,
             .statfs (mounted mountPoint new).Mountpoint (.ok stat),
             .update (probed stat (mounted mountPoint new)) (.error uErr)], s3)
        | (.ok new1, s3) =>
          (none,
            [.mount new.Path mountPoint fsType new.RequestedFormat.Mountoptions none,
             .statfs (mounted mountPoint new).Mountpoint (.ok stat),
             .update (probed stat (mounted mountPoint new)) (.ok new1)], s3)
  else (none, [], s)

/-- Lines 54-148: `DirectCSIDriveListener.Update` for the listener whose node
is `nodeID`. The body never reads `old`. -/
def Update {σ : Type} (env : Env σ) (nodeID : String) (old new : DirectCSIDrive)
    (s : σ) : Outcome σ :=
  if nodeID ≠ new.OwnerNode then ⟨none, [], s⟩
  else if !new.DirectCSIOwned then ⟨none, [], s⟩
  else if new.RequestedFormat.Filesystem = "" ∧ new.RequestedFormat.Mountpoint = "" then
    ⟨none, [], s⟩
  else if new.DriveStatus = DriveStatus.Online then ⟨none, [], s⟩
  else
    let fsType := new.RequestedFormat.Filesystem
    match formatPhase env fsType new s with
    | (.exit r, tr, s1) => ⟨r, tr, s1⟩
    | (.cont new1, tr, s1) =>
      match mountPhase env fsType new1 s1 with
      | (r, tr2, s2) => ⟨r, tr ++ tr2, s2⟩

/-- The k-fold redelivery of one record: `Update` run `k` times in a row on
the same `(old, new)`, each run starting in the world the previous one left;
the result is the concatenated trace and the final world. -/
def redeliver {σ : Type} (env : Env σ) (nodeID : String) (old new : DirectCSIDrive) :
    Nat → σ → List Event × σ
  | 0, s => ([], s)
  | k + 1, s =>
    let r := Update env nodeID old new s
    let rest := redeliver env nodeID old new k r.world
    (r.trace ++ rest.1, rest.2)

/-! ## Vocabulary of the properties -/

/-- The record passes the three filters and the `Online` guard of lines
59-76. -/
def passesGuards (nodeID : String) (new : DirectCSIDrive) : Prop :=
  nodeID = new.OwnerNode ∧ new.DirectCSIOwned = true ∧
  ¬ (new.RequestedFormat.Filesystem = "" ∧ new.RequestedFormat.Mountpoint = "") ∧
  new.DriveStatus ≠ DriveStatus.Online

instance (nodeID : String) (new : DirectCSIDrive) : Decidable (passesGuards nodeID new) := by
  unfold passesGuards; infer_instance

/-- A single plain path component: not empty, without a separator, and
neither `.` nor `..`. -/
def plainComponent (n : String) : Prop :=
  n.data ≠ [] ∧ '/' ∉ n.data ∧ n.data ≠ ['.'] ∧ n.data ≠ ['.', '.']

instance (n : String) : Decidable (plainComponent n) := by
  unfold plainComponent; infer_instance

/-- The call succeeded; for a store update, the store also returned the
record that was submitted. -/
def Event.succeeded : Event → Bool
  | .unmount _ none => true
  | .update d (.ok d1) => decide (d1 = d)
  | .format _ _ _ none => true
  | .mount _ _ _ _ none => true
  | .statfs _ (.ok _) => true
  | _ => false

/-- The error the call answered with, if it failed. -/
def Event.failure : Event → Option GoError
  | .unmount _ r => r
  | .update _ (.error e) => some e
  | .update _ (.ok _) => none
  | .format _ _ _ r => r
  | .mount _ _ _ _ r => r
  | .statfs _ (.error e) => some e
  | .statfs _ (.ok _) => none

/-- What lines 92-143 return when the call `ev` has failed with `e`: the
format and the mount error go through `fmt.Errorf`, the others are returned
as they are. -/
def Event.returned (ev : Event) (e : GoError) : GoError :=
  match ev with
  | .format _ _ _ _ => Errorf "Failed to format the device: " e
  | .mount _ _ _ _ _ => Errorf "Failed to mount the device: " e
  | _ => e

/-- The call is one to `FormatDevice`. -/
def Event.isFormat : Event → Bool
  | .format _ _ _ _ => true
  | _ => false

/-- The call is one to `MountDevice`. -/
def Event.isMount : Event → Bool
  | .mount _ _ _ _ _ => true
  | _ => false

/-- The call is one to `syscall.Statfs`. -/
def Event.isStatfs : Event → Bool
  | .statfs _ _ => true
  | _ => false

/-- The call is a store update. -/
def Event.isUpdate : Event → Bool
  | .update _ _ => true
  | _ => false

/-- The records the store accepted, in order: the submitted record of every
store update that did not fail. -/
def persisted : List Event → List DirectCSIDrive
  | [] => []
  | .update d (.ok _) :: tr => d :: persisted tr
  | _ :: tr => persisted tr

/-- What the unmount step of the format phase leaves for the format proper:
nothing was run on an unmounted drive (`pre = []`, the record in hand is
`new`); on a mounted drive with `force` the unmount at the absolute path `p`
and the store update both succeeded, and the store's answer `base` is the
record in hand. -/
def unmountStage {σ : Type} (env : Env σ) (new : DirectCSIDrive) (s : σ)
    (pre : List Event) (base : DirectCSIDrive) : Prop :=
  (new.Mountpoint = "" ∧ pre = [] ∧ base = new) ∨
  (new.Mountpoint ≠ "" ∧ new.RequestedFormat.Force = true ∧
    ∃ p, Abs (env.Getwd s) new.Mountpoint = .ok p ∧
      pre = [.unmount p none, .update (unmounted new) (.ok base)])

/-- What the format phase leaves for the mount phase when it does not return:
without a requested filesystem nothing was run (`pre = []`, the record in hand
is `new`); with one, the unmount step, the format and the store update of the
format checkpoint all succeeded, and the store's answer `base` is the record
in hand. -/
def formatStage {σ : Type} (env : Env σ) (new : DirectCSIDrive) (s : σ)
    (pre : List Event) (base : DirectCSIDrive) : Prop :=
  (new.RequestedFormat.Filesystem = "" ∧ pre = [] ∧ base = new) ∨
  (new.RequestedFormat.Filesystem ≠ "" ∧
    ∃ pre0 base0, unmountStage env new s pre0 base0 ∧
      ¬ (base0.Filesystem ≠ "" ∧ new.RequestedFormat.Force = false) ∧
      pre = pre0 ++
        [.format base0.Path new.RequestedFormat.Filesystem new.RequestedFormat.Force none,
         .update (formatted new.RequestedFormat.Filesystem base0) (.ok base)])

/-- The kind of a call, without its arguments and its answer. -/
inductive Kind where
  | unmount
  | update
  | format
  | mount
  | statfs
deriving DecidableEq, Repr

/-- The kind of a logged call. -/
def Event.kind : Event → Kind
  | .unmount _ _ => Kind.unmount
  | .update _ _ => Kind.update
  | .format _ _ _ _ => Kind.format
  | .mount _ _ _ _ _ => Kind.mount
  | .statfs _ _ => Kind.statfs

/-- The drive's last persisted state after a run on `new` with trace `tr`: the
record the store accepted last, or `new` itself when the run persisted
nothing. -/
def lastState (new : DirectCSIDrive) (tr : List Event) : DirectCSIDrive :=
  ((persisted tr).getLast?).getD new

/-- The record meets one of the validation aborts of lines 82-85 and 101-104:
a filesystem is requested without `force` for a drive that is mounted or
already has a filesystem. -/
def validationAbort (new : DirectCSIDrive) : Prop :=
  new.RequestedFormat.Filesystem ≠ "" ∧ new.RequestedFormat.Force = false ∧
  (new.Mountpoint ≠ "" ∨ new.Filesystem ≠ "")

instance (new : DirectCSIDrive) : Decidable (validationAbort new) := by
  unfold validationAbort; infer_instance

/-- The `MountOptions` of the records a run submits, in the order of the run:
each submitted record takes its `MountOptions` from `allowed`, and the
`MountOptions` of a record the store returns are allowed from the next call
on. -/
def optionsFramed (allowed : List (List String)) : List Event → Prop
  | [] => True
  | .update sub (.ok prev) :: tr =>
    sub.MountOptions ∈ allowed ∧ optionsFramed (prev.MountOptions :: allowed) tr
  | .update sub (.error _) :: tr => sub.MountOptions ∈ allowed ∧ optionsFramed allowed tr
  | .unmount _ _ :: tr => optionsFramed allowed tr
  | .format _ _ _ _ :: tr => optionsFramed allowed tr
  | .mount _ _ _ _ _ :: tr => optionsFramed allowed tr
  | .statfs _ _ :: tr => optionsFramed allowed tr

/-! ## Sample environments and records -/

/-- A scripted environment over a call counter: each primitive gives the
scripted answer and counts the call; the store returns the submitted record
unless `storeErr` is set. -/
def scripted (cwd : Except GoError String) (unmountRes formatRes mountRes : Option GoError)
    (statRes : Except GoError Statfs_t) (storeErr : Option GoError) : Env Nat where
  Getwd := fun _ => cwd
  UnmountIfMounted := fun _ n => (unmountRes, n + 1)
  FormatDevice := fun _ _ _ n => (formatRes, n + 1)
  MountDevice := fun _ _ _ _ n => (mountRes, n + 1)
  Statfs := fun _ n => (statRes, n + 1)
  StoreUpdate := fun d n =>
    match storeErr with
    | none => (.ok d, n + 1)
    | some e => (.error e, n + 1)

/-- Every call succeeds; the probe reports 1000 free blocks of 4096 bytes. -/
def healthy : Env Nat :=
  scripted (.ok "/") none none none (.ok ⟨4096, 1000⟩) none

/-- As `healthy`, but the working directory cannot be read. -/
def noCwd : Env Nat :=
  scripted (.error ⟨"getwd: no such file or directory"⟩) none none none (.ok ⟨4096, 1000⟩) none

/-- As `healthy`, but `FormatDevice` fails. -/
def formatFails : Env Nat :=
  scripted (.ok "/") none (some ⟨"exit status 1"⟩) none (.ok ⟨4096, 1000⟩) none

/-- As `healthy`, but the probe reports `2^51` free blocks of 4096 bytes. -/
def hugeDisk : Env Nat :=
  scripted (.ok "/") none none none (.ok ⟨4096, 2251799813685248⟩) none

/-- Scenario 1: owned, claimed, unmounted, unformatted, `xfs` requested. -/
def d1 : DirectCSIDrive :=
  { Name := "d1", OwnerNode := "node-1", DirectCSIOwned := true, Path := "d1-path",
    Filesystem := "", Mountpoint := "", MountOptions := [], FreeCapacity := 0,
    DriveStatus := DriveStatus.New,
    RequestedFormat :=
      { Filesystem := "xfs", Mountpoint := "", Mountoptions := [], Force := false } }

/-- Scenario 2: mounted at `/data`, `ext4` requested without `force`. -/
def d2 : DirectCSIDrive :=
  { Name := "d2", OwnerNode := "node-1", DirectCSIOwned := true, Path := "d2-path",
    Filesystem := "xfs", Mountpoint := "/data", MountOptions := [], FreeCapacity := 0,
    DriveStatus := DriveStatus.New,
    RequestedFormat :=
      { Filesystem := "ext4", Mountpoint := "", Mountoptions := [], Force := false } }

/-- Scenario 3: mounted at `/data`, `ext4` requested with `force`. -/
def d3 : DirectCSIDrive :=
  { Name := "d3", OwnerNode := "node-1", DirectCSIOwned := true, Path := "d3-path",
    Filesystem := "xfs", Mountpoint := "/data", MountOptions := [], FreeCapacity := 0,
    DriveStatus := DriveStatus.New,
    RequestedFormat :=
      { Filesystem := "ext4", Mountpoint := "", Mountoptions := [], Force := true } }

/-- Scenario 4: an `Online` drive with a forced request. -/
def d4 : DirectCSIDrive :=
  { Name := "d4", OwnerNode := "node-1", DirectCSIOwned := true, Path := "d4-path",
    Filesystem := "xfs", Mountpoint := "/data", MountOptions := [], FreeCapacity := 0,
    DriveStatus := DriveStatus.Online,
    RequestedFormat :=
      { Filesystem := "ext4", Mountpoint := "", Mountoptions := [], Force := true } }

/-- Scenario 5: a drive of another node with a forced request. -/
def d5 : DirectCSIDrive :=
  { Name := "d5", OwnerNode := "node-2", DirectCSIOwned := true, Path := "d5-path",
    Filesystem := "", Mountpoint := "", MountOptions := [], FreeCapacity := 0,
    DriveStatus := DriveStatus.New,
    RequestedFormat :=
      { Filesystem := "xfs", Mountpoint := "/srv", Mountoptions := ["ro"], Force := true } }

/-- A converged drive: formatted, mounted, nothing requested. -/
def d6 : DirectCSIDrive :=
  { Name := "d6", OwnerNode := "node-1", DirectCSIOwned := true, Path := "d6-path",
    Filesystem := "xfs", Mountpoint := "/mnt/direct-csi/d6", MountOptions := [],
    FreeCapacity := 4096000, DriveStatus := DriveStatus.New,
    RequestedFormat :=
      { Filesystem := "", Mountpoint := "", Mountoptions := [], Force := false } }

/-- A drive mounted at the relative path `data`, `ext4` requested with
`force`. -/
def d7 : DirectCSIDrive :=
  { Name := "d7", OwnerNode := "node-1", DirectCSIOwned := true, Path := "d7-path",
    Filesystem := "xfs", Mountpoint := "data", MountOptions := [], FreeCapacity := 0,
    DriveStatus := DriveStatus.New,
    RequestedFormat :=
      { Filesystem := "ext4", Mountpoint := "", Mountoptions := [], Force := true } }

/-- As `healthy`, but `MountDevice` fails. -/
def mountFails : Env Nat :=
  scripted (.ok "/") none none (some ⟨"exit status 32"⟩) (.ok ⟨4096, 1000⟩) none

/-- As `healthy`, but the probe fails. -/
def probeFails : Env Nat :=
  scripted (.ok "/") none none none (.error ⟨"input/output error"⟩) none

/-- As `healthy`, but the store answers every update with the submitted record
in which `MountOptions` is set to `["noatime"]`. -/
def rewritingStore : Env Nat where
  Getwd := fun _ => .ok "/"
  UnmountIfMounted := fun _ n => (none, n + 1)
  FormatDevice := fun _ _ _ n => (none, n + 1)
  MountDevice := fun _ _ _ _ n => (none, n + 1)
  Statfs := fun _ n => (.ok ⟨4096, 1000⟩, n + 1)
  StoreUpdate := fun d n => (.ok { d with MountOptions := ["noatime"] }, n + 1)

/-- A drive formatted with `xfs` and mounted at `/data`, with a mount-only
request for `/srv`. -/
def d8 : DirectCSIDrive :=
  { Name := "d8", OwnerNode := "node-1", DirectCSIOwned := true, Path := "d8-path",
    Filesystem := "xfs", Mountpoint := "/data", MountOptions := [], FreeCapacity := 0,
    DriveStatus := DriveStatus.New,
    RequestedFormat :=
      { Filesystem := "", Mountpoint := "/srv", Mountoptions := [], Force := false } }

/-- Scenario 1 for a drive whose name is `..`. -/
def d9 : DirectCSIDrive :=
  { Name := "..", OwnerNode := "node-1", DirectCSIOwned := true, Path := "d9-path",
    Filesystem := "", Mountpoint := "", MountOptions := [], FreeCapacity := 0,
    DriveStatus := DriveStatus.New,
    RequestedFormat :=
      { Filesystem := "xfs", Mountpoint := "", Mountoptions := [], Force := false } }

/-- An unmounted drive formatted with `xfs`, with a mount-only request for
`/srv`. -/
def d10 : DirectCSIDrive :=
  { Name := "d10", OwnerNode := "node-1", DirectCSIOwned := true, Path := "d10-path",
    Filesystem := "xfs", Mountpoint := "", MountOptions := [], FreeCapacity := 0,
    DriveStatus := DriveStatus.New,
    RequestedFormat :=
      { Filesystem := "", Mountpoint := "/srv", Mountoptions := [], Force := false } }

/-- Scenario 1 with the mount options `["noatime"]` requested. -/
def d11 : DirectCSIDrive :=
  { Name := "d11", OwnerNode := "node-1", DirectCSIOwned := true, Path := "d11-path",
    Filesystem := "", Mountpoint := "", MountOptions := [], FreeCapacity := 0,
    DriveStatus := DriveStatus.New,
    RequestedFormat :=
      { Filesystem := "xfs", Mountpoint := "", Mountoptions := ["noatime"], Force := false } }

/-- Scenario 1 with the mountpoint `/srv` requested. -/
def d12 : DirectCSIDrive :=
  { Name := "d12", OwnerNode := "node-1", DirectCSIOwned := true, Path := "d12-path",
    Filesystem := "", Mountpoint := "", MountOptions := [], FreeCapacity := 0,
    DriveStatus := DriveStatus.New,
    RequestedFormat :=
      { Filesystem := "xfs", Mountpoint := "/srv", Mountoptions := [], Force := false } }

/-- An unclaimed drive of the local node with a forced request. -/
def d13 : DirectCSIDrive :=
  { Name := "d13", OwnerNode := "node-1", DirectCSIOwned := false, Path := "d13-path",
    Filesystem := "xfs", Mountpoint := "/data", MountOptions := [], FreeCapacity := 0,
    DriveStatus := DriveStatus.New,
    RequestedFormat :=
      { Filesystem := "ext4", Mountpoint := "", Mountoptions := [], Force := true } }

/-- What `rewritingStore` answers when `d` is submitted. -/
def rewritten (d : DirectCSIDrive) : DirectCSIDrive :=
  { d with MountOptions := ["noatime"] }

/-- The calls of scenario 1 with `rewritingStore` before its last store
update. -/
def rewritingPrefix : List Event :=
  [Event.format "d1-path" "xfs" false none,
   Event.update (formatted "xfs" d1) (.ok (rewritten (formatted "xfs" d1))),
   Event.mount "d1-path" "/mnt/direct-csi/d1" "xfs" [] none,
   Event.statfs "/mnt/direct-csi/d1" (.ok ⟨4096, 1000⟩)]

/-- The record that scenario 1 with `rewritingStore` submits last. -/
def rewritingLast : DirectCSIDrive :=
  probed ⟨4096, 1000⟩ (mounted "/mnt/direct-csi/d1" (rewritten (formatted "xfs" d1)))

/-! ## Case analysis of the phases -/

/-- Every way `unmountPhase` can end. -/
theorem unmountPhase_cases {σ : Type} (env : Env σ) (force : Bool)
    (new : DirectCSIDrive) (s : σ) :
    (new.Mountpoint = "" ∧ unmountPhase env force new s = (.cont new, [], s)) ∨
    (new.Mountpoint ≠ "" ∧ force = false ∧ unmountPhase env force new s = (.exit none, [], s)) ∨
    (new.Mountpoint ≠ "" ∧ force = true ∧ ∃ e, Abs (env.Getwd s) new.Mountpoint = .error e ∧
      unmountPhase env force new s = (.exit (some e), [], s)) ∨
    (new.Mountpoint ≠ "" ∧ force = true ∧ ∃ p e s1, Abs (env.Getwd s) new.Mountpoint = .ok p ∧
      env.UnmountIfMounted p s = (some e, s1) ∧
      unmountPhase env force new s = (.exit (some e), [.unmount p (some e)], s1)) ∨
    (new.Mountpoint ≠ "" ∧ force = true ∧ ∃ p s1 e s2,
      Abs (env.Getwd s) new.Mountpoint = .ok p ∧
      env.UnmountIfMounted p s = (none, s1) ∧
      env.StoreUpdate (unmounted new) s1 = (.error e, s2) ∧
      unmountPhase env force new s =
        (.exit (some e), [.unmount p none, .update (unmounted new) (.error e)], s2)) ∨
    (new.Mountpoint ≠ "" ∧ force = true ∧ ∃ p s1 new1 s2,
      Abs (env.Getwd s) new.Mountpoint = .ok p ∧
      env.UnmountIfMounted p s = (none, s1) ∧
      env.StoreUpdate (unmounted new) s1 = (.ok new1, s2) ∧
      unmountPhase env force new s =
        (.cont new1, [.unmount p none, .update (unmounted new) (.ok new1)], s2)) := by
  unfold unmountPhase
  by_cases hm : new.Mountpoint = ""
  · simp [hm]
  · cases force
    · simp [hm]
    · simp only [hm, ne_eq, not_false_eq_true, ↓reduceIte, Bool.not_true, Bool.false_eq_true,
        false_and, and_false, true_and, false_or]
      cases hA : Abs (env.Getwd s) new.Mountpoint with
      | error e => simp
      | ok p =>
        rcases hU : env.UnmountIfMounted p s with ⟨_ | e, s1⟩
        · rcases hS : env.StoreUpdate (unmounted new) s1 with ⟨e | new1, s2⟩
          · simp [hU, hS]
          · simp [hU, hS]
        · simp [hU]

/-- Every way `formatPhase` can end, given how its `unmountPhase` ended. -/
theorem formatPhase_cases {σ : Type} (env : Env σ) (fsType : String)
    (new : DirectCSIDrive) (s : σ) :
    (fsType = "" ∧ formatPhase env fsType new s = (.cont new, [], s)) ∨
    (fsType ≠ "" ∧ ∃ r tr s1,
      unmountPhase env new.RequestedFormat.Force new s = (.exit r, tr, s1) ∧
      formatPhase env fsType new s = (.exit r, tr, s1)) ∨
    (fsType ≠ "" ∧ ∃ new1 tr s1,
      unmountPhase env new.RequestedFormat.Force new s = (.cont new1, tr, s1) ∧
      ((new1.Filesystem ≠ "" ∧ new.RequestedFormat.Force = false ∧
        formatPhase env fsType new s = (.exit none, tr, s1)) ∨
       (¬ (new1.Filesystem ≠ "" ∧ new.RequestedFormat.Force = false) ∧ ∃ e s2,
        env.FormatDevice new1.Path fsType new.RequestedFormat.Force s1 = (some e, s2) ∧
        formatPhase env fsType new s =
          (.exit (some (Errorf "Failed to format the device: " e)),
            tr ++ [.format new1.Path fsType new.RequestedFormat.Force (some e)], s2)) ∨
       (¬ (new1.Filesystem ≠ "" ∧ new.RequestedFormat.Force = false) ∧ ∃ s2 e s3,
        env.FormatDevice new1.Path fsType new.RequestedFormat.Force s1 = (none, s2) ∧
        env.StoreUpdate (formatted fsType new1) s2 = (.error e, s3) ∧
        formatPhase env fsType new s =
          (.exit (some e),
            tr ++ [.format new1.Path fsType new.RequestedFormat.Force none,
                   .update (formatted fsType new1) (.error e)], s3)) ∨
       (¬ (new1.Filesystem ≠ "" ∧ new.RequestedFormat.Force = false) ∧ ∃ s2 new2 s3,
        env.FormatDevice new1.Path fsType new.RequestedFormat.Force s1 = (none, s2) ∧
        env.StoreUpdate (formatted fsType new1) s2 = (.ok new2, s3) ∧
        formatPhase env fsType new s =
          (.cont new2,
            tr ++ [.format new1.Path fsType new.RequestedFormat.Force none,
                   .update (formatted fsType new1) (.ok new2)], s3)))) := by
  unfold formatPhase
  by_cases hfs : fsType = ""
  · simp [hfs]
  · generalize new.RequestedFormat.Force = force
    rcases hU : unmountPhase env force new s with ⟨_ | new1, tr, s1⟩
    · simp [hfs, hU]
    · refine Or.inr (Or.inr ⟨hfs, new1, tr, s1, rfl, ?_⟩)
      simp only [hfs, hU, ne_eq, not_false_eq_true, ↓reduceIte, Bool.not_eq_true']
      by_cases hg : ¬ new1.Filesystem = "" ∧ force = false
      · exact Or.inl ⟨hg.1, hg.2, if_pos hg⟩
      · rw [if_neg hg]
        rcases hF : env.FormatDevice new1.Path fsType force s1 with ⟨_ | e, s2⟩
        · rcases hS : env.StoreUpdate (formatted fsType new1) s2 with ⟨e | new2, s3⟩
          · exact Or.inr (Or.inr (Or.inl ⟨hg, s2, e, s3, rfl, hS, by simp only [hS]⟩))
          · exact Or.inr (Or.inr (Or.inr ⟨hg, s2, new2, s3, rfl, hS, by simp only [hS]⟩))
        · exact Or.inr (Or.inl ⟨hg, e, s2, rfl, rfl⟩)

/-- Every way `mountPhase` can end. -/
theorem mountPhase_cases {σ : Type} (env : Env σ) (fsType : String)
    (new : DirectCSIDrive) (s : σ) :
    (new.Mountpoint ≠ "" ∧ mountPhase env fsType new s = (none, [], s)) ∨
    (new.Mountpoint = "" ∧ ∃ e s1,
      env.MountDevice new.Path (mountTarget new) fsType new.RequestedFormat.Mountoptions s
        = (some e, s1) ∧
      mountPhase env fsType new s =
        (some (Errorf "Failed to mount the device: " e),
          [.mount new.Path (mountTarget new) fsType new.RequestedFormat.Mountoptions (some e)],
          s1)) ∨
    (new.Mountpoint = "" ∧ ∃ s1 e s2,
      env.MountDevice new.Path (mountTarget new) fsType new.RequestedFormat.Mountoptions s
        = (none, s1) ∧
      env.Statfs (mountTarget new) s1 = (.error e, s2) ∧
      mountPhase env fsType new s =
        (some e,
          [.mount new.Path (mountTarget new) fsType new.RequestedFormat.Mountoptions none,
           .statfs (mountTarget new) (.error e)], s2)) ∨
    (new.Mountpoint = "" ∧ ∃ s1 stat s2 e s3,
      env.MountDevice new.Path (mountTarget new) fsType new.RequestedFormat.Mountoptions s
        = (none, s1) ∧
      env.Statfs (mountTarget new) s1 = (.ok stat, s2) ∧
      env.StoreUpdate (probed stat (mounted (mountTarget new) new)) s2 = (.error e, s3) ∧
      mountPhase env fsType new s =
        (some e,
          [.mount new.Path (mountTarget new) fsType new.RequestedFormat.Mountoptions none,
           .statfs (mountTarget new) (.ok stat),
           .update (probed stat (mounted (mountTarget new) new)) (.error e)], s3)) ∨
    (new.Mountpoint = "" ∧ ∃ s1 stat s2 new1 s3,
      env.MountDevice new.Path (mountTarget new) fsType new.RequestedFormat.Mountoptions s
        = (none, s1) ∧
      env.Statfs (mountTarget new) s1 = (.ok stat, s2) ∧
      env.StoreUpdate (probed stat (mounted (mountTarget new) new)) s2 = (.ok new1, s3) ∧
      mountPhase env fsType new s =
        (none,
          [.mount new.Path (mountTarget new) fsType new.RequestedFormat.Mountoptions none,
           .statfs (mountTarget new) (.ok stat),
           .update (probed stat (mounted (mountTarget new) new)) (.ok new1)], s3)) := by
  unfold mountPhase
  by_cases hm : new.Mountpoint = ""
  · refine Or.inr ?_
    simp only [hm, ↓reduceIte, true_and]
    have hmt : (mounted (mountTarget new) new).Mountpoint = mountTarget new := rfl
    rw [hmt]
    rcases hM : env.MountDevice new.Path (mountTarget new) fsType
        new.RequestedFormat.Mountoptions s with ⟨_ | e, s1⟩
    · rcases hS : env.Statfs (mountTarget new) s1 with ⟨e | stat, s2⟩
      · exact Or.inr (Or.inl ⟨s1, e, s2, rfl, hS, by simp only [hS]⟩)
      · rcases hP : env.StoreUpdate (probed stat (mounted (mountTarget new) new)) s2 with
          ⟨e | new1, s3⟩
        · exact Or.inr (Or.inr (Or.inl ⟨s1, stat, s2, e, s3, rfl, hS, hP, by simp only [hS, hP]⟩))
        · exact Or.inr (Or.inr (Or.inr ⟨s1, stat, s2, new1, s3, rfl, hS, hP,
            by simp only [hS, hP]⟩))
    · exact Or.inl ⟨e, s1, rfl, rfl⟩
  · exact Or.inl ⟨hm, if_neg hm⟩

/-- The filters of lines 59-76: what `Update` returns when one of them
applies. -/
theorem Update_filtered {σ : Type} (env : Env σ) (nodeID : String)
    (old new : DirectCSIDrive) (s : σ)
    (h : nodeID ≠ new.OwnerNode ∨ new.DirectCSIOwned = false ∨
      (new.RequestedFormat.Filesystem = "" ∧ new.RequestedFormat.Mountpoint = "") ∨
      new.DriveStatus = DriveStatus.Online) :
    Update env nodeID old new s = ⟨none, [], s⟩ := by
  unfold Update
  split_ifs <;> simp_all

/-- Past the guards, a format phase that returns ends `Update`. -/
theorem Update_exit {σ : Type} (env : Env σ) (nodeID : String)
    (old new : DirectCSIDrive) (s : σ) (hg : passesGuards nodeID new)
    (r : Option GoError) (tr : List Event) (s1 : σ)
    (hf : formatPhase env new.RequestedFormat.Filesystem new s = (.exit r, tr, s1)) :
    Update env nodeID old new s = ⟨r, tr, s1⟩ := by
  obtain ⟨h1, h2, h3, h4⟩ := hg
  unfold Update
  simp [h1, h2, h3, h4, hf]

/-- Past the guards, a format phase that goes on is followed by the mount
phase on the record it hands over. -/
theorem Update_cont {σ : Type} (env : Env σ) (nodeID : String)
    (old new : DirectCSIDrive) (s : σ) (hg : passesGuards nodeID new)
    (new1 : DirectCSIDrive) (tr : List Event) (s1 : σ)
    (hf : formatPhase env new.RequestedFormat.Filesystem new s = (.cont new1, tr, s1)) :
    Update env nodeID old new s =
      ⟨(mountPhase env new.RequestedFormat.Filesystem new1 s1).1,
       tr ++ (mountPhase env new.RequestedFormat.Filesystem new1 s1).2.1,
       (mountPhase env new.RequestedFormat.Filesystem new1 s1).2.2⟩ := by
  obtain ⟨h1, h2, h3, h4⟩ := hg
  unfold Update
  simp [h1, h2, h3, h4, hf]

/-! ## `filepath.Clean`: fuel and samples -/

/-- The fuel of `cleanLoop` is never exhausted: any two fuels at least as long
as the unread path give the same result. -/
theorem cleanLoop_fuel (rooted : Bool) (fuel1 : Nat) :
    ∀ (fuel2 : Nat) (path out : List Char) (dd : Nat),
      path.length ≤ fuel1 → path.length ≤ fuel2 →
      cleanLoop rooted fuel1 path out dd = cleanLoop rooted fuel2 path out dd := by
  induction fuel1 with
  | zero =>
    intro fuel2 path out dd h1 _
    have hp : path = [] := List.length_eq_zero.mp (Nat.le_zero.mp h1)
    subst hp
    cases fuel2 <;> simp [cleanLoop]
  | succ k ih =>
    intro fuel2 path out dd h1 h2
    cases path with
    | nil => cases fuel2 <;> simp [cleanLoop]
    | cons c rest =>
      cases fuel2 with
      | zero => simp at h2
      | succ j =>
        have hk : rest.length ≤ k := by simpa using h1
        have hj : rest.length ≤ j := by simpa using h2
        have hd : (rest.drop 1).length ≤ rest.length := by simp
        have hw : (rest.dropWhile (fun x => !isSep x)).length ≤ rest.length :=
          (List.dropWhile_sublist _).length_le
        simp only [cleanLoop]
        split_ifs
        all_goals
          first
          | exact ih j _ _ _ hk hj
          | exact ih j _ _ _ (hd.trans hk) (hd.trans hj)
          | exact ih j _ _ _ (hw.trans hk) (hw.trans hj)

/-- The model of `filepath.Clean` on cases of Go's own test table. -/
theorem Clean_samples :
    Clean "" = "." ∧ Clean "/" = "/" ∧ Clean "abc/" = "abc" ∧ Clean "//abc" = "/abc" ∧
    Clean "abc//def//ghi" = "abc/def/ghi" ∧ Clean "abc/./def" = "abc/def" ∧
    Clean "/./abc/def" = "/abc/def" ∧ Clean "abc/def/ghi/../jkl" = "abc/def/jkl" ∧
    Clean "abc/def/../.." = "." ∧ Clean "/abc/def/../.." = "/" ∧
    Clean "abc/def/../../.." = ".." ∧ Clean "/abc/def/../../.." = "/" ∧
    Clean "abc/def/../../../ghi/jkl/../../../mno" = "../../mno" ∧
    Clean "/../abc" = "/abc" ∧ Clean "abc/./../def" = "def" ∧
    Clean "abc/../../././../def" = "../../def" := by
  decide

/-! ## The default mountpoint -/

theorem takeWhile_noSep (cs : List Char) (h : '/' ∉ cs) :
    cs.takeWhile (fun x => !isSep x) = cs := by
  rw [List.takeWhile_eq_self_iff]
  intro x hx
  have : x ≠ '/' := fun e => h (e ▸ hx)
  simpa [isSep] using this

theorem dropWhile_noSep (cs : List Char) (h : '/' ∉ cs) :
    cs.dropWhile (fun x => !isSep x) = [] := by
  rw [List.dropWhile_eq_nil_iff]
  intro x hx
  have : x ≠ '/' := fun e => h (e ▸ hx)
  simpa [isSep] using this

/-- The loop of `Clean` on a last, plain element of a rooted path: a separator
and the element are appended. -/
theorem cleanLoop_plain (fuel : Nat) (nd out : List Char) (dd : Nat)
    (h0 : nd ≠ []) (hs : '/' ∉ nd) (h1 : nd ≠ ['.']) (h2 : nd ≠ ['.', '.'])
    (hout : out.length ≠ 1) :
    cleanLoop true (fuel + 2) nd out dd = out ++ '/' :: nd := by
  cases nd with
  | nil => exact absurd rfl h0
  | cons c cs =>
    have hc : c ≠ '/' := fun e => hs (by simp [e])
    have hcs : '/' ∉ cs := fun h => hs (List.mem_cons_of_mem _ h)
    have hA : ¬ (c = '.' ∧ (cs = [] ∨ isSep (cs.getD 0 '/') = true)) := by
      rintro ⟨rfl, h | h⟩
      · exact h1 (by simp [h])
      · cases cs with
        | nil => exact h1 rfl
        | cons x xs =>
          simp [isSep] at h
          exact hcs (by simp [h])
    have hB : ¬ (c = '.' ∧ cs.getD 0 '/' = '.' ∧
        (cs.length = 1 ∨ isSep (cs.getD 1 '/') = true)) := by
      rintro ⟨rfl, hd, h⟩
      cases cs with
      | nil => simp at hd
      | cons x xs =>
        simp at hd
        subst hd
        cases xs with
        | nil => exact h2 rfl
        | cons y ys =>
          simp [isSep] at h
          exact hcs (by simp [h])
    have hC : ¬ (isSep c = true) := by simpa [isSep] using hc
    rw [cleanLoop, if_neg hC, if_neg hA, if_neg hB, takeWhile_noSep cs hcs,
      dropWhile_noSep cs hcs]
    simp [cleanLoop, hout]

theorem cleanChars_default (nd : List Char)
    (h0 : nd ≠ []) (hs : '/' ∉ nd) (h1 : nd ≠ ['.']) (h2 : nd ≠ ['.', '.']) :
    cleanChars (['/', '/', 'm', 'n', 't', '/', 'd', 'i', 'r', 'e', 'c', 't', '-', 'c', 's', 'i',
      '/'] ++ nd) =
    ['/', 'm', 'n', 't', '/', 'd', 'i', 'r', 'e', 'c', 't', '-', 'c', 's', 'i', '/'] ++ nd := by
  have key := cleanLoop_plain (nd.length + 9) nd
    ['/', 'm', 'n', 't', '/', 'd', 'i', 'r', 'e', 'c', 't', '-', 'c', 's', 'i'] 1 h0 hs h1 h2
    (by decide)
  have key2 : cleanLoop true (nd.length + 1 + 1 + 1 + 1 + 1 + 1 + 1 + 1 + 1 + 1 + 1) nd
      ['/', 'm', 'n', 't', '/', 'd', 'i', 'r', 'e', 'c', 't', '-', 'c', 's', 'i'] 1 =
      ['/', 'm', 'n', 't', '/', 'd', 'i', 'r', 'e', 'c', 't', '-', 'c', 's', 'i'] ++ '/' :: nd :=
    key
  simp only [cleanChars, cleanLoop, isSep, List.takeWhile, List.dropWhile, List.cons_append,
    List.nil_append, List.length_cons, List.length_append, List.length_nil, beq_self_eq_true,
    ↓reduceIte, Char.reduceBEq, Bool.not_false, Bool.not_true, Bool.false_eq_true, false_and,
    Char.reduceEq, List.getD_cons_zero, or_false, or_true, and_true, and_false, reduceCtorEq,
    Bool.true_and, Bool.false_and, Bool.or_false, Bool.and_true, Nat.reduceBneDiff,
    bne_self_eq_false, List.singleton_append, List.length_singleton, Nat.reduceAdd,
    Nat.reduceEqDiff, Nat.reduceBEq, Nat.reduceBNe, bne_iff_ne, ne_eq, not_true_eq_false,
    not_false_eq_true]
  rw [key2]
  simp

/-- The default mountpoint of line 123 for a drive whose name is a plain path
component. -/
theorem Join_default (n : String) (h : plainComponent n) :
    Join ["/", "mnt", "direct-csi", n] = "/mnt/direct-csi/" ++ n := by
  obtain ⟨h0, hs, h1, h2⟩ := h
  have hj : Join ["/", "mnt", "direct-csi", n]
      = String.mk (cleanChars ("//mnt/direct-csi/".data ++ n.data)) := by
    simp [Join, Clean, String.intercalate, String.intercalate.go]
  rw [hj]
  apply String.ext
  simp only [String.data_append]
  exact cleanChars_default n.data h0 hs h1 h2

/-! ## `int64` arithmetic -/

/-- A value in the `int64` range is its own conversion. -/
theorem toInt64_of_inRange (n : Int) (h1 : -(2 ^ 63) ≤ n) (h2 : n < 2 ^ 63) :
    toInt64 n = n := by
  unfold toInt64
  omega

/-- The result of a conversion is in the `int64` range. -/
theorem toInt64_inRange (n : Int) : -(2 ^ 63) ≤ toInt64 n ∧ toInt64 n < 2 ^ 63 := by
  unfold toInt64
  omega

/-! ## The shapes of the format phase -/

/-- Every way the format phase can end when a filesystem is requested, with
the unmount step spelled out. -/
theorem formatPhase_shapes {σ : Type} (env : Env σ) (fsType : String)
    (new : DirectCSIDrive) (s : σ) (hfs : fsType ≠ "") :
    (new.Mountpoint ≠ "" ∧ new.RequestedFormat.Force = false ∧
      formatPhase env fsType new s = (.exit none, [], s)) ∨
    (new.Mountpoint ≠ "" ∧ new.RequestedFormat.Force = true ∧
      ∃ e, Abs (env.Getwd s) new.Mountpoint = .error e ∧
        formatPhase env fsType new s = (.exit (some e), [], s)) ∨
    (new.Mountpoint ≠ "" ∧ new.RequestedFormat.Force = true ∧
      ∃ p e s1, Abs (env.Getwd s) new.Mountpoint = .ok p ∧
        formatPhase env fsType new s = (.exit (some e), [.unmount p (some e)], s1)) ∨
    (new.Mountpoint ≠ "" ∧ new.RequestedFormat.Force = true ∧
      ∃ p e s1, Abs (env.Getwd s) new.Mountpoint = .ok p ∧
        formatPhase env fsType new s =
          (.exit (some e), [.unmount p none, .update (unmounted new) (.error e)], s1)) ∨
    (new.Mountpoint = "" ∧ new.Filesystem ≠ "" ∧ new.RequestedFormat.Force = false ∧
      formatPhase env fsType new s = (.exit none, [], s)) ∨
    (∃ pre base e s1, unmountStage env new s pre base ∧
      ¬ (base.Filesystem ≠ "" ∧ new.RequestedFormat.Force = false) ∧
      formatPhase env fsType new s =
        (.exit (some (Errorf "Failed to format the device: " e)),
          pre ++ [.format base.Path fsType new.RequestedFormat.Force (some e)], s1)) ∨
    (∃ pre base e s1, unmountStage env new s pre base ∧
      ¬ (base.Filesystem ≠ "" ∧ new.RequestedFormat.Force = false) ∧
      formatPhase env fsType new s =
        (.exit (some e),
          pre ++ [.format base.Path fsType new.RequestedFormat.Force none,
                  .update (formatted fsType base) (.error e)], s1)) ∨
    (∃ pre base new2 s1, unmountStage env new s pre base ∧
      ¬ (base.Filesystem ≠ "" ∧ new.RequestedFormat.Force = false) ∧
      formatPhase env fsType new s =
        (.cont new2,
          pre ++ [.format base.Path fsType new.RequestedFormat.Force none,
                  .update (formatted fsType base) (.ok new2)], s1)) := by
  rcases formatPhase_cases env fsType new s with
    ⟨h, _⟩ | ⟨_, r, tr, s1, hU, hF⟩ | ⟨_, new1, tr, s1, hU, hF⟩
  · exact absurd h hfs
  · rcases unmountPhase_cases env new.RequestedFormat.Force new s with
      ⟨_, hu⟩ | ⟨hm, hf, hu⟩ | ⟨hm, hf, e, hA, hu⟩ | ⟨hm, hf, p, e, s2, hA, _, hu⟩ |
      ⟨hm, hf, p, s2, e, s3, hA, _, _, hu⟩ | ⟨hm, hf, p, s2, new2, s3, hA, _, _, hu⟩
    · rw [hu] at hU; simp at hU
    · rw [hu] at hU
      simp only [Prod.mk.injEq, Flow.exit.injEq] at hU
      obtain ⟨rfl, rfl, rfl⟩ := hU
      exact Or.inl ⟨hm, hf, hF⟩
    · rw [hu] at hU
      simp only [Prod.mk.injEq, Flow.exit.injEq] at hU
      obtain ⟨rfl, rfl, rfl⟩ := hU
      exact Or.inr (Or.inl ⟨hm, hf, e, hA, hF⟩)
    · rw [hu] at hU
      simp only [Prod.mk.injEq, Flow.exit.injEq] at hU
      obtain ⟨rfl, rfl, rfl⟩ := hU
      exact Or.inr (Or.inr (Or.inl ⟨hm, hf, p, e, _, hA, hF⟩))
    · rw [hu] at hU
      simp only [Prod.mk.injEq, Flow.exit.injEq] at hU
      obtain ⟨rfl, rfl, rfl⟩ := hU
      exact Or.inr (Or.inr (Or.inr (Or.inl ⟨hm, hf, p, e, _, hA, hF⟩)))
    · rw [hu] at hU; simp at hU
  · have hst : (new.Mountpoint = "" ∧ tr = [] ∧ new1 = new ∧ s1 = s) ∨
        (new.Mountpoint ≠ "" ∧ new.RequestedFormat.Force = true ∧
          ∃ p, Abs (env.Getwd s) new.Mountpoint = .ok p ∧
            tr = [.unmount p none, .update (unmounted new) (.ok new1)]) := by
      rcases unmountPhase_cases env new.RequestedFormat.Force new s with
        ⟨hm, hu⟩ | ⟨hm, hf, hu⟩ | ⟨hm, hf, e, hA, hu⟩ | ⟨hm, hf, p, e, s2, hA, _, hu⟩ |
        ⟨hm, hf, p, s2, e, s3, hA, _, _, hu⟩ | ⟨hm, hf, p, s2, new2, s3, hA, _, _, hu⟩
      · rw [hu] at hU
        simp only [Prod.mk.injEq, Flow.cont.injEq] at hU
        obtain ⟨rfl, rfl, rfl⟩ := hU
        exact Or.inl ⟨hm, rfl, rfl, rfl⟩
      · rw [hu] at hU; simp at hU
      · rw [hu] at hU; simp at hU
      · rw [hu] at hU; simp at hU
      · rw [hu] at hU; simp at hU
      · rw [hu] at hU
        simp only [Prod.mk.injEq, Flow.cont.injEq] at hU
        obtain ⟨rfl, rfl, rfl⟩ := hU
        exact Or.inr ⟨hm, hf, p, hA, rfl⟩
    have hst2 : unmountStage env new s tr new1 := by
      rcases hst with ⟨hm, h1, h2, _⟩ | h
      · exact Or.inl ⟨hm, h1, h2⟩
      · exact Or.inr h
    rcases hF with ⟨hfsx, hforce, hF⟩ | ⟨hn, e, s2, _, hF⟩ | ⟨hn, s2, e, s3, _, _, hF⟩ |
      ⟨hn, s2, new2, s3, _, _, hF⟩
    · rcases hst with ⟨hm, rfl, rfl, rfl⟩ | ⟨_, hf, _⟩
      · exact Or.inr (Or.inr (Or.inr (Or.inr (Or.inl ⟨hm, hfsx, hforce, hF⟩))))
      · rw [hf] at hforce; exact absurd hforce (by decide)
    · exact Or.inr (Or.inr (Or.inr (Or.inr (Or.inr (Or.inl ⟨tr, new1, e, s2, hst2, hn, hF⟩)))))
    · exact Or.inr (Or.inr (Or.inr (Or.inr (Or.inr (Or.inr (Or.inl
        ⟨tr, new1, e, s3, hst2, hn, hF⟩))))))
    · exact Or.inr (Or.inr (Or.inr (Or.inr (Or.inr (Or.inr (Or.inr
        ⟨tr, new1, new2, s3, hst2, hn, hF⟩))))))

/-! ## The shapes of a run -/

/-- Every way a run of `Update` can go once the record has passed the guards:
the two validation exits, the failures of the unmount step, the failures of
the format step, and the five ends of the mount phase. -/
theorem Update_shapes {σ : Type} (env : Env σ) (nodeID : String)
    (old new : DirectCSIDrive) (s : σ) (hg : passesGuards nodeID new) :
    (new.RequestedFormat.Filesystem ≠ "" ∧ new.Mountpoint ≠ "" ∧
      new.RequestedFormat.Force = false ∧ Update env nodeID old new s = ⟨none, [], s⟩) ∨
    (new.RequestedFormat.Filesystem ≠ "" ∧ new.Mountpoint = "" ∧ new.Filesystem ≠ "" ∧
      new.RequestedFormat.Force = false ∧ Update env nodeID old new s = ⟨none, [], s⟩) ∨
    (new.RequestedFormat.Filesystem ≠ "" ∧ new.Mountpoint ≠ "" ∧
      new.RequestedFormat.Force = true ∧
      ∃ e, Abs (env.Getwd s) new.Mountpoint = .error e ∧
        Update env nodeID old new s = ⟨some e, [], s⟩) ∨
    (new.RequestedFormat.Filesystem ≠ "" ∧ new.Mountpoint ≠ "" ∧
      new.RequestedFormat.Force = true ∧
      ∃ p e s1, Abs (env.Getwd s) new.Mountpoint = .ok p ∧
        Update env nodeID old new s = ⟨some e, [.unmount p (some e)], s1⟩) ∨
    (new.RequestedFormat.Filesystem ≠ "" ∧ new.Mountpoint ≠ "" ∧
      new.RequestedFormat.Force = true ∧
      ∃ p e s1, Abs (env.Getwd s) new.Mountpoint = .ok p ∧
        Update env nodeID old new s =
          ⟨some e, [.unmount p none, .update (unmounted new) (.error e)], s1⟩) ∨
    (new.RequestedFormat.Filesystem ≠ "" ∧
      ∃ pre base e s1, unmountStage env new s pre base ∧
        ¬ (base.Filesystem ≠ "" ∧ new.RequestedFormat.Force = false) ∧
        Update env nodeID old new s =
          ⟨some (Errorf "Failed to format the device: " e),
            pre ++ [.format base.Path new.RequestedFormat.Filesystem
              new.RequestedFormat.Force (some e)], s1⟩) ∨
    (new.RequestedFormat.Filesystem ≠ "" ∧
      ∃ pre base e s1, unmountStage env new s pre base ∧
        ¬ (base.Filesystem ≠ "" ∧ new.RequestedFormat.Force = false) ∧
        Update env nodeID old new s =
          ⟨some e,
            pre ++ [.format base.Path new.RequestedFormat.Filesystem
              new.RequestedFormat.Force none,
              .update (formatted new.RequestedFormat.Filesystem base) (.error e)], s1⟩) ∨
    (∃ pre base, formatStage env new s pre base ∧
      ((base.Mountpoint ≠ "" ∧ ∃ s1, Update env nodeID old new s = ⟨none, pre, s1⟩) ∨
       (base.Mountpoint = "" ∧ ∃ e s1, Update env nodeID old new s =
          ⟨some (Errorf "Failed to mount the device: " e),
            pre ++ [.mount base.Path (mountTarget base) new.RequestedFormat.Filesystem
              base.RequestedFormat.Mountoptions (some e)], s1⟩) ∨
       (base.Mountpoint = "" ∧ ∃ e s1, Update env nodeID old new s =
          ⟨some e,
            pre ++ [.mount base.Path (mountTarget base) new.RequestedFormat.Filesystem
              base.RequestedFormat.Mountoptions none,
              .statfs (mountTarget base) (.error e)], s1⟩) ∨
       (base.Mountpoint = "" ∧ ∃ stat e s1, Update env nodeID old new s =
          ⟨some e,
            pre ++ [.mount base.Path (mountTarget base) new.RequestedFormat.Filesystem
              base.RequestedFormat.Mountoptions none,
              .statfs (mountTarget base) (.ok stat),
              .update (probed stat (mounted (mountTarget base) base)) (.error e)], s1⟩) ∨
       (base.Mountpoint = "" ∧ ∃ stat new1 s1, Update env nodeID old new s =
          ⟨none,
            pre ++ [.mount base.Path (mountTarget base) new.RequestedFormat.Filesystem
              base.RequestedFormat.Mountoptions none,
              .statfs (mountTarget base) (.ok stat),
              .update (probed stat (mounted (mountTarget base) base)) (.ok new1)], s1⟩))) := by
  have hmount : ∀ (pre : List Event) (base : DirectCSIDrive) (s1 : σ),
      formatPhase env new.RequestedFormat.Filesystem new s = (.cont base, pre, s1) →
      ((base.Mountpoint ≠ "" ∧ ∃ s1, Update env nodeID old new s = ⟨none, pre, s1⟩) ∨
       (base.Mountpoint = "" ∧ ∃ e s1, Update env nodeID old new s =
          ⟨some (Errorf "Failed to mount the device: " e),
            pre ++ [.mount base.Path (mountTarget base) new.RequestedFormat.Filesystem
              base.RequestedFormat.Mountoptions (some e)], s1⟩) ∨
       (base.Mountpoint = "" ∧ ∃ e s1, Update env nodeID old new s =
          ⟨some e,
            pre ++ [.mount base.Path (mountTarget base) new.RequestedFormat.Filesystem
              base.RequestedFormat.Mountoptions none,
              .statfs (mountTarget base) (.error e)], s1⟩) ∨
       (base.Mountpoint = "" ∧ ∃ stat e s1, Update env nodeID old new s =
          ⟨some e,
            pre ++ [.mount base.Path (mountTarget base) new.RequestedFormat.Filesystem
              base.RequestedFormat.Mountoptions none,
              .statfs (mountTarget base) (.ok stat),
              .update (probed stat (mounted (mountTarget base) base)) (.error e)], s1⟩) ∨
       (base.Mountpoint = "" ∧ ∃ stat new1 s1, Update env nodeID old new s =
          ⟨none,
            pre ++ [.mount base.Path (mountTarget base) new.RequestedFormat.Filesystem
              base.RequestedFormat.Mountoptions none,
              .statfs (mountTarget base) (.ok stat),
              .update (probed stat (mounted (mountTarget base) base)) (.ok new1)], s1⟩)) := by
    intro pre base s1 hF
    rw [Update_cont env nodeID old new s hg base pre s1 hF]
    rcases mountPhase_cases env new.RequestedFormat.Filesystem base s1 with
      ⟨hm, hM⟩ | ⟨hm, e, s2, _, hM⟩ | ⟨hm, s2, e, s3, _, _, hM⟩ |
      ⟨hm, s2, stat, s3, e, s4, _, _, _, hM⟩ | ⟨hm, s2, stat, s3, new1, s4, _, _, _, hM⟩
    · exact Or.inl ⟨hm, s1, by rw [hM]; simp⟩
    · exact Or.inr (Or.inl ⟨hm, e, s2, by rw [hM]⟩)
    · exact Or.inr (Or.inr (Or.inl ⟨hm, e, s3, by rw [hM]⟩))
    · exact Or.inr (Or.inr (Or.inr (Or.inl ⟨hm, stat, e, s4, by rw [hM]⟩)))
    · exact Or.inr (Or.inr (Or.inr (Or.inr ⟨hm, stat, new1, s4, by rw [hM]⟩)))
  by_cases hfs : new.RequestedFormat.Filesystem = ""
  · rcases formatPhase_cases env new.RequestedFormat.Filesystem new s with
      ⟨_, hF⟩ | ⟨h, _⟩ | ⟨h, _⟩
    · exact Or.inr (Or.inr (Or.inr (Or.inr (Or.inr (Or.inr (Or.inr
        ⟨[], new, Or.inl ⟨hfs, rfl, rfl⟩, hmount [] new s hF⟩))))))
    · exact absurd hfs h
    · exact absurd hfs h
  · rcases formatPhase_shapes env new.RequestedFormat.Filesystem new s hfs with
      ⟨hm, hf, hF⟩ | ⟨hm, hf, e, hA, hF⟩ | ⟨hm, hf, p, e, s1, hA, hF⟩ |
      ⟨hm, hf, p, e, s1, hA, hF⟩ | ⟨hm, hx, hf, hF⟩ | ⟨pre, base, e, s1, hst, hn, hF⟩ |
      ⟨pre, base, e, s1, hst, hn, hF⟩ | ⟨pre, base, new2, s1, hst, hn, hF⟩
    · exact Or.inl ⟨hfs, hm, hf, Update_exit env nodeID old new s hg _ _ _ hF⟩
    · exact Or.inr (Or.inr (Or.inl
        ⟨hfs, hm, hf, e, hA, Update_exit env nodeID old new s hg _ _ _ hF⟩))
    · exact Or.inr (Or.inr (Or.inr (Or.inl
        ⟨hfs, hm, hf, p, e, s1, hA, Update_exit env nodeID old new s hg _ _ _ hF⟩)))
    · exact Or.inr (Or.inr (Or.inr (Or.inr (Or.inl
        ⟨hfs, hm, hf, p, e, s1, hA, Update_exit env nodeID old new s hg _ _ _ hF⟩))))
    · exact Or.inr (Or.inl ⟨hfs, hm, hx, hf, Update_exit env nodeID old new s hg _ _ _ hF⟩)
    · exact Or.inr (Or.inr (Or.inr (Or.inr (Or.inr (Or.inl
        ⟨hfs, pre, base, e, s1, hst, hn, Update_exit env nodeID old new s hg _ _ _ hF⟩)))))
    · exact Or.inr (Or.inr (Or.inr (Or.inr (Or.inr (Or.inr (Or.inl
        ⟨hfs, pre, base, e, s1, hst, hn, Update_exit env nodeID old new s hg _ _ _ hF⟩))))))
    · exact Or.inr (Or.inr (Or.inr (Or.inr (Or.inr (Or.inr (Or.inr
        ⟨_, new2, Or.inr ⟨hfs, pre, base, hst, hn, rfl⟩, hmount _ new2 s1 hF⟩))))))

/-- A record that does not pass the guards is left alone. -/
theorem Update_not_passing {σ : Type} (env : Env σ) (nodeID : String)
    (old new : DirectCSIDrive) (s : σ) (hg : ¬ passesGuards nodeID new) :
    Update env nodeID old new s = ⟨none, [], s⟩ := by
  apply Update_filtered
  unfold passesGuards at hg
  by_cases h1 : nodeID = new.OwnerNode
  · by_cases h2 : new.DirectCSIOwned = true
    · by_cases h3 : new.RequestedFormat.Filesystem = "" ∧ new.RequestedFormat.Mountpoint = ""
      · exact Or.inr (Or.inr (Or.inl h3))
      · by_cases h4 : new.DriveStatus = DriveStatus.Online
        · exact Or.inr (Or.inr (Or.inr h4))
        · exact absurd ⟨h1, h2, h3, h4⟩ hg
    · exact Or.inr (Or.inl (by simpa using h2))
  · exact Or.inl h1

/-- The calls of a completed unmount step: an unmount and a store update,
neither of which failed. -/
theorem unmountStage_mem {σ : Type} {env : Env σ} {new : DirectCSIDrive} {s : σ}
    {pre : List Event} {base : DirectCSIDrive} (h : unmountStage env new s pre base)
    (ev : Event) (hev : ev ∈ pre) :
    ev.failure = none ∧ ev.isFormat = false ∧ ev.isMount = false ∧ ev.isStatfs = false := by
  rcases h with ⟨_, rfl, _⟩ | ⟨_, _, p, _, rfl⟩
  · simp at hev
  · simp only [List.mem_cons, List.mem_singleton, List.not_mem_nil, or_false] at hev
    rcases hev with rfl | rfl <;> simp [Event.failure, Event.isFormat, Event.isMount,
      Event.isStatfs]

/-- The calls of a completed format phase: none of them failed, and none is a
mount or a probe. -/
theorem formatStage_mem {σ : Type} {env : Env σ} {new : DirectCSIDrive} {s : σ}
    {pre : List Event} {base : DirectCSIDrive} (h : formatStage env new s pre base)
    (ev : Event) (hev : ev ∈ pre) :
    ev.failure = none ∧ ev.isMount = false ∧ ev.isStatfs = false := by
  rcases h with ⟨_, rfl, _⟩ | ⟨_, pre0, base0, hst, _, rfl⟩
  · simp at hev
  · simp only [List.mem_append, List.mem_cons, List.mem_singleton, List.not_mem_nil,
      or_false] at hev
    rcases hev with h0 | rfl | rfl
    · have := unmountStage_mem hst ev h0
      exact ⟨this.1, this.2.2.1, this.2.2.2⟩
    · simp [Event.failure, Event.isMount, Event.isStatfs]
    · simp [Event.failure, Event.isMount, Event.isStatfs]

/-! ## The guards -/

/-- Claim C1 (ownership isolation): for a record whose owner is not the
listener's node, whatever its other fields and whatever the environment does,
`Update` returns nil, makes no call at all (no unmount, format, mount, statfs,
store update) and leaves the world as it was. -/
theorem ownership_isolation {σ : Type} (env : Env σ) (nodeID : String)
    (old new : DirectCSIDrive) (s : σ) (h : new.OwnerNode ≠ nodeID) :
    Update env nodeID old new s = ⟨none, [], s⟩ :=
  Update_filtered env nodeID old new s (Or.inl (fun e => h e.symm))

/-- Witness of C1: scenario 5, a drive of `node-2` with a forced request,
delivered to the listener of `node-1`. -/
theorem ownership_isolation_witness :
    d5.OwnerNode ≠ "node-1" ∧ Update healthy "node-1" d5 d5 0 = ⟨none, [], 0⟩ :=
  ⟨by decide, ownership_isolation healthy "node-1" d5 d5 0 (by decide)⟩

/-- Claim C2 (busy guard): for a record whose status is `Online`, whatever its
request (forced or not), owner and claim, `Update` returns nil, makes no call
and leaves the world as it was. -/
theorem busy_guard {σ : Type} (env : Env σ) (nodeID : String)
    (old new : DirectCSIDrive) (s : σ) (h : new.DriveStatus = DriveStatus.Online) :
    Update env nodeID old new s = ⟨none, [], s⟩ :=
  Update_filtered env nodeID old new s (Or.inr (Or.inr (Or.inr h)))

/-- Witness of C2: scenario 4, an `Online` drive with a forced request. -/
theorem busy_guard_witness :
    d4.DriveStatus = DriveStatus.Online ∧ Update healthy "node-1" d4 d4 0 = ⟨none, [], 0⟩ :=
  ⟨by decide, busy_guard healthy "node-1" d4 d4 0 (by decide)⟩

/-- Claim C3 (format guard): for a mounted record (`Mountpoint != ""`) with a
requested filesystem and `Force == false`, whatever its owner, claim and
status, `Update` makes no call (so neither format nor unmount, mount, statfs,
store update), returns nil and leaves the world as it was. -/
theorem format_guard {σ : Type} (env : Env σ) (nodeID : String)
    (old new : DirectCSIDrive) (s : σ) (hm : new.Mountpoint ≠ "")
    (hf : new.RequestedFormat.Force = false) (hr : new.RequestedFormat.Filesystem ≠ "") :
    Update env nodeID old new s = ⟨none, [], s⟩ := by
  by_cases hg : passesGuards nodeID new
  · rcases formatPhase_shapes env new.RequestedFormat.Filesystem new s hr with
      ⟨_, _, hF⟩ | ⟨_, h, _⟩ | ⟨_, h, _⟩ | ⟨_, h, _⟩ | ⟨h, _⟩ | ⟨pre, base, e, s1, hst, _⟩ |
      ⟨pre, base, e, s1, hst, _⟩ | ⟨pre, base, new2, s1, hst, _⟩
    · exact Update_exit env nodeID old new s hg _ _ _ hF
    · rw [hf] at h; exact absurd h (by decide)
    · rw [hf] at h; exact absurd h (by decide)
    · rw [hf] at h; exact absurd h (by decide)
    · exact absurd h hm
    all_goals
      rcases hst with ⟨h, _⟩ | ⟨_, h, _⟩
      · exact absurd h hm
      · rw [hf] at h; exact absurd h (by decide)
  · exact Update_not_passing env nodeID old new s hg

/-- Witness of C3: scenario 2, a drive mounted at `/data` with `ext4` requested
without `force`. -/
theorem format_guard_witness :
    d2.Mountpoint ≠ "" ∧ d2.RequestedFormat.Force = false ∧
    d2.RequestedFormat.Filesystem ≠ "" ∧ Update healthy "node-1" d2 d2 0 = ⟨none, [], 0⟩ :=
  ⟨by decide, by decide, by decide,
    format_guard healthy "node-1" d2 d2 0 (by decide) (by decide) (by decide)⟩

/-- Claim C5 (filesystem-exists guard): for a record with a requested
filesystem, an existing filesystem (`Filesystem != ""`) and `Force == false`,
mounted or not, `Update` makes no call at all (no unmount, format, mount,
statfs, store update, also when a mountpoint is requested), returns nil and
leaves the world as it was. -/
theorem filesystem_exists_guard {σ : Type} (env : Env σ) (nodeID : String)
    (old new : DirectCSIDrive) (s : σ) (hr : new.RequestedFormat.Filesystem ≠ "")
    (hx : new.Filesystem ≠ "") (hf : new.RequestedFormat.Force = false) :
    Update env nodeID old new s = ⟨none, [], s⟩ := by
  by_cases hg : passesGuards nodeID new
  · rcases formatPhase_shapes env new.RequestedFormat.Filesystem new s hr with
      ⟨_, _, hF⟩ | ⟨_, h, _⟩ | ⟨_, h, _⟩ | ⟨_, h, _⟩ | ⟨_, _, _, hF⟩ |
      ⟨pre, base, e, s1, hst, hn, _⟩ | ⟨pre, base, e, s1, hst, hn, _⟩ |
      ⟨pre, base, new2, s1, hst, hn, _⟩
    · exact Update_exit env nodeID old new s hg _ _ _ hF
    · rw [hf] at h; exact absurd h (by decide)
    · rw [hf] at h; exact absurd h (by decide)
    · rw [hf] at h; exact absurd h (by decide)
    · exact Update_exit env nodeID old new s hg _ _ _ hF
    all_goals
      exfalso
      rcases hst with ⟨_, _, rfl⟩ | ⟨_, h, _⟩
      · exact hn ⟨hx, hf⟩
      · rw [hf] at h; exact absurd h (by decide)
  · exact Update_not_passing env nodeID old new s hg

/-- Witness of C5: scenario 1 with an `ext4` filesystem already on the
unmounted drive. -/
theorem filesystem_exists_guard_witness :
    ({ d1 with Filesystem := "ext4" } : DirectCSIDrive).RequestedFormat.Filesystem ≠ "" ∧
    ({ d1 with Filesystem := "ext4" } : DirectCSIDrive).Filesystem ≠ "" ∧
    ({ d1 with Filesystem := "ext4" } : DirectCSIDrive).RequestedFormat.Force = false ∧
    Update healthy "node-1" d1 { d1 with Filesystem := "ext4" } 0 = ⟨none, [], 0⟩ :=
  ⟨by decide, by decide, by decide,
    filesystem_exists_guard healthy "node-1" d1 { d1 with Filesystem := "ext4" } 0
      (by decide) (by decide) (by decide)⟩

/-- Redelivering a record that `Update` leaves alone leaves everything as it
was, however often it is done. -/
theorem redeliver_quiet {σ : Type} (env : Env σ) (nodeID : String)
    (old new : DirectCSIDrive)
    (h : ∀ s, Update env nodeID old new s = ⟨none, [], s⟩) (k : Nat) (s : σ) :
    redeliver env nodeID old new k s = ([], s) := by
  induction k generalizing s with
  | zero => rfl
  | succ k ih => simp [redeliver, h, ih]

/-- Claim C8 (idempotence on a converged drive): for a record whose
`requestedFormat` fields are all empty, mounted and formatted or not, `Update`
makes no call, returns nil and leaves the world as it was; so any number `k`
of repeated deliveries makes no call and leaves the world as it was. -/
theorem converged_idempotent {σ : Type} (env : Env σ) (nodeID : String)
    (old new : DirectCSIDrive) (s : σ)
    (h : new.RequestedFormat = ⟨"", "", [], false⟩) :
    Update env nodeID old new s = ⟨none, [], s⟩ ∧
    ∀ k, redeliver env nodeID old new k s = ([], s) := by
  have hq : ∀ t, Update env nodeID old new t = ⟨none, [], t⟩ := fun t =>
    Update_filtered env nodeID old new t (Or.inr (Or.inr (Or.inl (by simp [h]))))
  exact ⟨hq s, fun k => redeliver_quiet env nodeID old new hq k s⟩

/-- Witness of C8: a formatted, mounted drive with nothing requested,
delivered once and five times. -/
theorem converged_idempotent_witness :
    d6.RequestedFormat = ⟨"", "", [], false⟩ ∧
    Update healthy "node-1" d6 d6 0 = ⟨none, [], 0⟩ ∧
    redeliver healthy "node-1" d6 d6 5 0 = ([], 0) :=
  ⟨by decide, (converged_idempotent healthy "node-1" d6 d6 0 (by decide)).1,
    (converged_idempotent healthy "node-1" d6 d6 0 (by decide)).2 5⟩

/-! ## Free capacity -/

/-- Claim C6, counterexample: with a probe answering 4096-byte blocks and
`2^51` available blocks after a successful mount, the record persisted last
carries `FreeCapacity = -2^63`, while the exact product is `2^63`. -/
theorem capacity_exactness_fails :
    Event.statfs "/mnt/direct-csi/d1" (.ok ⟨4096, 2251799813685248⟩) ∈
      (Update hugeDisk "node-1" d1 d1 0).trace ∧
    ((persisted (Update hugeDisk "node-1" d1 d1 0).trace).getLast?).map
      DirectCSIDrive.FreeCapacity = some (-9223372036854775808) ∧
    (4096 : Int) * ((2251799813685248 : Nat) : Int) = 9223372036854775808 := by
  decide

/-- Claim C6, amended: a successful probe is followed at once by the last
store update, and the `FreeCapacity` submitted there is the `int64` product
`int64(Bsize) * int64(Bavail)`, that is the product modulo `2^64` read as a
signed 64-bit value; it is the exact product `Bsize × Bavail` whenever `Bsize`
is in the `int64` range, `Bavail < 2^63` and the product is in the `int64`
range. -/
theorem capacity_int64_product {σ : Type} (env : Env σ) (nodeID : String)
    (old new : DirectCSIDrive) (s : σ) (p : String) (stat : Statfs_t)
    (h : Event.statfs p (.ok stat) ∈ (Update env nodeID old new s).trace) :
    ∃ pre sub res,
      (Update env nodeID old new s).trace =
        pre ++ [Event.statfs p (.ok stat), Event.update sub res] ∧
      sub.FreeCapacity = toInt64 (toInt64 stat.Bsize * toInt64 (stat.Bavail : Int)) ∧
      (-(2 ^ 63) ≤ stat.Bsize → stat.Bsize < 2 ^ 63 → (stat.Bavail : Int) < 2 ^ 63 →
        -(2 ^ 63) ≤ stat.Bsize * (stat.Bavail : Int) →
        stat.Bsize * (stat.Bavail : Int) < 2 ^ 63 →
        sub.FreeCapacity = stat.Bsize * (stat.Bavail : Int)) := by
  have hcap : ∀ d : DirectCSIDrive,
      (probed stat d).FreeCapacity = toInt64 (toInt64 stat.Bsize * toInt64 (stat.Bavail : Int)) ∧
      (-(2 ^ 63) ≤ stat.Bsize → stat.Bsize < 2 ^ 63 → (stat.Bavail : Int) < 2 ^ 63 →
        -(2 ^ 63) ≤ stat.Bsize * (stat.Bavail : Int) →
        stat.Bsize * (stat.Bavail : Int) < 2 ^ 63 →
        (probed stat d).FreeCapacity = stat.Bsize * (stat.Bavail : Int)) := by
    intro d
    refine ⟨rfl, fun h1 h2 h3 h4 h5 => ?_⟩
    show toInt64 (toInt64 stat.Bsize * toInt64 (stat.Bavail : Int)) = _
    rw [toInt64_of_inRange stat.Bsize h1 h2,
      toInt64_of_inRange (stat.Bavail : Int) (by omega) h3,
      toInt64_of_inRange _ h4 h5]
  by_cases hg : passesGuards nodeID new
  · rcases Update_shapes env nodeID old new s hg with
      ⟨_, _, _, hU⟩ | ⟨_, _, _, _, hU⟩ | ⟨_, _, _, e, _, hU⟩ | ⟨_, _, _, q, e, s1, _, hU⟩ |
      ⟨_, _, _, q, e, s1, _, hU⟩ | ⟨_, pre, base, e, s1, hst, _, hU⟩ |
      ⟨_, pre, base, e, s1, hst, _, hU⟩ | ⟨pre, base, hfst, hM⟩
    · rw [hU] at h; simp at h
    · rw [hU] at h; simp at h
    · rw [hU] at h; simp at h
    · rw [hU] at h; simp at h
    · rw [hU] at h; simp at h
    · rw [hU] at h
      simp only [List.mem_append, List.mem_singleton, reduceCtorEq, or_false] at h
      have := (unmountStage_mem hst _ h).2.2.2
      simp [Event.isStatfs] at this
    · rw [hU] at h
      simp only [List.mem_append, List.mem_cons, List.mem_singleton, reduceCtorEq,
        List.not_mem_nil, or_false] at h
      have := (unmountStage_mem hst _ h).2.2.2
      simp [Event.isStatfs] at this
    · have hpre : Event.statfs p (.ok stat) ∉ pre := fun hin => by
        have := (formatStage_mem hfst _ hin).2.2
        simp [Event.isStatfs] at this
      rcases hM with ⟨_, s1, hU⟩ | ⟨_, e, s1, hU⟩ | ⟨_, e, s1, hU⟩ | ⟨_, st, e, s1, hU⟩ |
        ⟨_, st, n1, s1, hU⟩
      · rw [hU] at h; exact absurd h hpre
      · rw [hU] at h; simp [hpre] at h
      · rw [hU] at h; simp [hpre] at h
      · rw [hU] at h ⊢
        simp only [List.mem_append, hpre, List.mem_cons, reduceCtorEq, Event.statfs.injEq,
          Except.ok.injEq, List.mem_singleton, false_or, or_false, List.not_mem_nil] at h
        obtain ⟨rfl, rfl⟩ := h
        exact ⟨pre ++ [.mount base.Path (mountTarget base) new.RequestedFormat.Filesystem
          base.RequestedFormat.Mountoptions none],
          probed stat (mounted (mountTarget base) base), .error e, by simp, hcap _⟩
      · rw [hU] at h ⊢
        simp only [List.mem_append, hpre, List.mem_cons, reduceCtorEq, Event.statfs.injEq,
          Except.ok.injEq, List.mem_singleton, false_or, or_false, List.not_mem_nil] at h
        obtain ⟨rfl, rfl⟩ := h
        exact ⟨pre ++ [.mount base.Path (mountTarget base) new.RequestedFormat.Filesystem
          base.RequestedFormat.Mountoptions none],
          probed stat (mounted (mountTarget base) base), .ok n1, by simp, hcap _⟩
  · rw [Update_not_passing env nodeID old new s hg] at h
    simp at h

/-- Witness of C6 as amended: scenario 1 in the healthy environment, whose
probe answers 1000 free blocks of 4096 bytes. -/
theorem capacity_int64_product_witness :
    Event.statfs "/mnt/direct-csi/d1" (.ok ⟨4096, 1000⟩) ∈
      (Update healthy "node-1" d1 d1 0).trace ∧
    ∃ pre sub res,
      (Update healthy "node-1" d1 d1 0).trace =
        pre ++ [Event.statfs "/mnt/direct-csi/d1" (.ok ⟨4096, 1000⟩), Event.update sub res] ∧
      sub.FreeCapacity = toInt64 (toInt64 4096 * toInt64 ((1000 : Nat) : Int)) ∧
      (-(2 ^ 63) ≤ (4096 : Int) → (4096 : Int) < 2 ^ 63 → ((1000 : Nat) : Int) < 2 ^ 63 →
        -(2 ^ 63) ≤ (4096 : Int) * ((1000 : Nat) : Int) →
        (4096 : Int) * ((1000 : Nat) : Int) < 2 ^ 63 →
        sub.FreeCapacity = (4096 : Int) * ((1000 : Nat) : Int)) :=
  ⟨by decide,
    capacity_int64_product healthy "node-1" d1 d1 0 "/mnt/direct-csi/d1" ⟨4096, 1000⟩
      (by decide)⟩

/-! ## Scenario 1 -/

/-- Claim C7 (scenario 1 in general): for a drive of the local node that is
claimed, not `Online`, unmounted and unformatted, whose name is a plain path
component and whose request is `{filesystem: f}` alone with `f != ""`, if every
call of the run succeeds (the store answering with the submitted record),
the run is exactly `format(path, f, false)`, a store update, `mount(path,
"/mnt/direct-csi/" + name, f, [])`, `statfs("/mnt/direct-csi/" + name)`, a
store update; the record persisted last has `Filesystem == f`, `Mountpoint ==
"/mnt/direct-csi/" + name` and an empty request; and `Update` returns nil. -/
theorem scenario_format_then_mount {σ : Type} (env : Env σ) (nodeID : String)
    (old new : DirectCSIDrive) (s : σ) (f : String)
    (hown : new.OwnerNode = nodeID) (hcl : new.DirectCSIOwned = true)
    (hst : new.DriveStatus ≠ DriveStatus.Online)
    (hmp : new.Mountpoint = "") (hx : new.Filesystem = "")
    (hn : plainComponent new.Name)
    (hrf : new.RequestedFormat = ⟨f, "", [], false⟩) (hf : f ≠ "")
    (hsucc : ∀ ev ∈ (Update env nodeID old new s).trace, ev.succeeded = true) :
    ∃ stat final,
      (Update env nodeID old new s).trace =
        [Event.format new.Path f false none,
         Event.update (formatted f new) (.ok (formatted f new)),
         Event.mount new.Path ("/mnt/direct-csi/" ++ new.Name) f [] none,
         Event.statfs ("/mnt/direct-csi/" ++ new.Name) (.ok stat),
         Event.update final (.ok final)] ∧
      (persisted (Update env nodeID old new s).trace).getLast? = some final ∧
      final.Filesystem = f ∧
      final.Mountpoint = "/mnt/direct-csi/" ++ new.Name ∧
      final.RequestedFormat = ⟨"", "", [], false⟩ ∧
      (Update env nodeID old new s).err = none := by
  have hrf1 : new.RequestedFormat.Filesystem = f := by rw [hrf]
  have hrf2 : new.RequestedFormat.Force = false := by rw [hrf]
  have hg : passesGuards nodeID new :=
    ⟨hown.symm, hcl, fun h => hf (hrf1 ▸ h.1), hst⟩
  have hno : ¬ (new.Mountpoint ≠ "") := fun h => h hmp
  have hstage : ∀ pre base, unmountStage env new s pre base → pre = [] ∧ new = base := by
    intro pre base h
    rcases h with ⟨_, h1, h2⟩ | ⟨h, _⟩
    · exact ⟨h1, h2.symm⟩
    · exact absurd hmp h
  rcases Update_shapes env nodeID old new s hg with
    ⟨_, h, _⟩ | ⟨_, _, h, _⟩ | ⟨_, h, _⟩ | ⟨_, h, _⟩ | ⟨_, h, _⟩ |
    ⟨_, pre, base, e, s1, hu, _, hU⟩ | ⟨_, pre, base, e, s1, hu, _, hU⟩ |
    ⟨pre, base, hfst, hM⟩
  · exact absurd hmp h
  · exact absurd hx h
  · exact absurd hmp h
  · exact absurd hmp h
  · exact absurd hmp h
  · exfalso
    rw [hU] at hsucc
    have := hsucc (.format base.Path new.RequestedFormat.Filesystem
      new.RequestedFormat.Force (some e)) (by simp)
    simp [Event.succeeded] at this
  · exfalso
    rw [hU] at hsucc
    have := hsucc (.update (formatted new.RequestedFormat.Filesystem base) (.error e))
      (by simp)
    simp [Event.succeeded] at this
  · rcases hfst with ⟨h, _⟩ | ⟨_, pre0, base0, hu, _, rfl⟩
    · exact absurd (hrf1 ▸ h) hf
    · obtain ⟨rfl, rfl⟩ := hstage pre0 base0 hu
      rw [hrf1, hrf2] at hM
      have hbase : ∀ r tr w, Update env nodeID old new s = ⟨r, tr, w⟩ →
          Event.update (formatted f new) (.ok base) ∈ tr → base = formatted f new := by
        intro r tr w hU hin
        rw [hU] at hsucc
        have := hsucc _ hin
        simpa [Event.succeeded] using this
      have hmt : formatted f new = base → mountTarget base = "/mnt/direct-csi/" ++ new.Name := by
        rintro rfl
        have : (formatted f new).RequestedFormat.Mountpoint = "" := by
          simp [formatted, hrf]
        simp only [mountTarget, this, ↓reduceIte]
        exact Join_default new.Name hn
      rcases hM with ⟨hm, s1, hU⟩ | ⟨_, e, s1, hU⟩ | ⟨_, e, s1, hU⟩ | ⟨_, st, e, s1, hU⟩ |
        ⟨_, st, n1, s1, hU⟩
      · have hb := hbase _ _ _ hU (by simp)
        rw [hb] at hm
        exact absurd rfl hm
      · exfalso
        rw [hU] at hsucc
        have := hsucc (.mount base.Path (mountTarget base) f
          base.RequestedFormat.Mountoptions (some e)) (by simp)
        simp [Event.succeeded] at this
      · exfalso
        rw [hU] at hsucc
        have := hsucc (.statfs (mountTarget base) (.error e)) (by simp)
        simp [Event.succeeded] at this
      · exfalso
        rw [hU] at hsucc
        have := hsucc (.update (probed st (mounted (mountTarget base) base)) (.error e))
          (by simp)
        simp [Event.succeeded] at this
      · have hb := hbase _ _ _ hU (by simp)
        have hn1 : n1 = probed st (mounted (mountTarget base) base) := by
          rw [hU] at hsucc
          have := hsucc (.update (probed st (mounted (mountTarget base) base)) (.ok n1))
            (by simp)
          simpa [Event.succeeded] using this
        have ht := hmt hb.symm
        subst hn1
        rw [ht] at hU
        subst hb
        have hopts : (formatted f new).RequestedFormat.Mountoptions = [] := by
          simp [formatted, hrf]
        have hpath : (formatted f new).Path = new.Path := rfl
        rw [hopts, hpath] at hU
        refine ⟨st, probed st (mounted ("/mnt/direct-csi/" ++ new.Name) (formatted f new)),
          ?_, ?_, rfl, rfl, ?_, ?_⟩
        · rw [hU]; simp
        · rw [hU]; simp [persisted]
        · simp [probed, mounted, formatted, hrf]
        · rw [hU]

/-- Witness of C7: scenario 1 in the healthy environment. -/
theorem scenario_format_then_mount_witness :
    d1.OwnerNode = "node-1" ∧ d1.DirectCSIOwned = true ∧
    d1.DriveStatus ≠ DriveStatus.Online ∧ d1.Mountpoint = "" ∧ d1.Filesystem = "" ∧
    plainComponent d1.Name ∧ d1.RequestedFormat = ⟨"xfs", "", [], false⟩ ∧ "xfs" ≠ "" ∧
    (∀ ev ∈ (Update healthy "node-1" d1 d1 0).trace, ev.succeeded = true) ∧
    ∃ stat final,
      (Update healthy "node-1" d1 d1 0).trace =
        [Event.format d1.Path "xfs" false none,
         Event.update (formatted "xfs" d1) (.ok (formatted "xfs" d1)),
         Event.mount d1.Path ("/mnt/direct-csi/" ++ d1.Name) "xfs" [] none,
         Event.statfs ("/mnt/direct-csi/" ++ d1.Name) (.ok stat),
         Event.update final (.ok final)] ∧
      (persisted (Update healthy "node-1" d1 d1 0).trace).getLast? = some final ∧
      final.Filesystem = "xfs" ∧
      final.Mountpoint = "/mnt/direct-csi/" ++ d1.Name ∧
      final.RequestedFormat = ⟨"", "", [], false⟩ ∧
      (Update healthy "node-1" d1 d1 0).err = none :=
  ⟨by decide, by decide, by decide, by decide, by decide, by decide, by decide, by decide,
    by decide,
    scenario_format_then_mount healthy "node-1" d1 d1 0 "xfs" (by decide) (by decide)
      (by decide) (by decide) (by decide) (by decide) (by decide) (by decide) (by decide)⟩

/-! ## Errors -/

/-- Claim C9, counterexample: in scenario 1 with a failing format, the format
primitive fails with the error `exit status 1`, and `Update` returns another
error, `Failed to format the device: exit status 1`. -/
theorem error_propagation_fails :
    Event.format "d1-path" "xfs" false (some ⟨"exit status 1"⟩) ∈
      (Update formatFails "node-1" d1 d1 0).trace ∧
    (Update formatFails "node-1" d1 d1 0).err ≠ some ⟨"exit status 1"⟩ ∧
    (Update formatFails "node-1" d1 d1 0).err =
      some ⟨"Failed to format the device: exit status 1"⟩ := by
  decide

/-- The error of a failed call and the error `Update` returns. -/
theorem failure_returned {σ : Type} (env : Env σ) (nodeID : String)
    (old new : DirectCSIDrive) (s : σ) (ev : Event) (e : GoError)
    (hin : ev ∈ (Update env nodeID old new s).trace) (hfail : ev.failure = some e) :
    (Update env nodeID old new s).err = some (ev.returned e) := by
  have hu : ∀ {pre base}, unmountStage env new s pre base → ev ∉ pre := fun h hm => by
    have := (unmountStage_mem h ev hm).1
    rw [this] at hfail
    cases hfail
  have hfm : ∀ {pre base}, formatStage env new s pre base → ev ∉ pre := fun h hm => by
    have := (formatStage_mem h ev hm).1
    rw [this] at hfail
    cases hfail
  by_cases hg : passesGuards nodeID new
  · rcases Update_shapes env nodeID old new s hg with
      ⟨_, _, _, hU⟩ | ⟨_, _, _, _, hU⟩ | ⟨_, _, _, e1, _, hU⟩ | ⟨_, _, _, q, e1, s1, _, hU⟩ |
      ⟨_, _, _, q, e1, s1, _, hU⟩ | ⟨_, pre, base, e1, s1, hst, _, hU⟩ |
      ⟨_, pre, base, e1, s1, hst, _, hU⟩ | ⟨pre, base, hfst, hM⟩
    · rw [hU] at hin; simp at hin
    · rw [hU] at hin; simp at hin
    · rw [hU] at hin; simp at hin
    · rw [hU] at hin ⊢
      simp only [List.mem_singleton] at hin
      subst hin
      simp only [Event.failure, Option.some.injEq] at hfail
      subst hfail
      rfl
    · rw [hU] at hin ⊢
      simp only [List.mem_cons, List.mem_singleton, List.not_mem_nil, or_false] at hin
      rcases hin with rfl | rfl
      · simp [Event.failure] at hfail
      · simp only [Event.failure, Option.some.injEq] at hfail
        subst hfail
        rfl
    · rw [hU] at hin ⊢
      simp only [List.mem_append, hu hst, List.mem_singleton, false_or] at hin
      subst hin
      simp only [Event.failure, Option.some.injEq] at hfail
      subst hfail
      rfl
    · rw [hU] at hin ⊢
      simp only [List.mem_append, hu hst, List.mem_cons, List.mem_singleton, List.not_mem_nil,
        false_or, or_false] at hin
      rcases hin with rfl | rfl
      · simp [Event.failure] at hfail
      · simp only [Event.failure, Option.some.injEq] at hfail
        subst hfail
        rfl
    · rcases hM with ⟨_, s1, hU⟩ | ⟨_, e1, s1, hU⟩ | ⟨_, e1, s1, hU⟩ | ⟨_, st, e1, s1, hU⟩ |
        ⟨_, st, n1, s1, hU⟩
      · rw [hU] at hin; exact absurd hin (hfm hfst)
      · rw [hU] at hin ⊢
        simp only [List.mem_append, hfm hfst, List.mem_singleton, false_or] at hin
        subst hin
        simp only [Event.failure, Option.some.injEq] at hfail
        subst hfail
        rfl
      · rw [hU] at hin ⊢
        simp only [List.mem_append, hfm hfst, List.mem_cons, List.mem_singleton,
          List.not_mem_nil, false_or, or_false] at hin
        rcases hin with rfl | rfl
        · simp [Event.failure] at hfail
        · simp only [Event.failure, Option.some.injEq] at hfail
          subst hfail
          rfl
      · rw [hU] at hin ⊢
        simp only [List.mem_append, hfm hfst, List.mem_cons, List.mem_singleton,
          List.not_mem_nil, false_or, or_false] at hin
        rcases hin with rfl | rfl | rfl
        · simp [Event.failure] at hfail
        · simp [Event.failure] at hfail
        · simp only [Event.failure, Option.some.injEq] at hfail
          subst hfail
          rfl
      · rw [hU] at hin
        simp only [List.mem_append, hfm hfst, List.mem_cons, List.mem_singleton,
          List.not_mem_nil, false_or, or_false] at hin
        rcases hin with rfl | rfl | rfl <;> simp [Event.failure] at hfail
  · rw [Update_not_passing env nodeID old new s hg] at hin
    simp at hin

/-- Claim C9, amended: whenever a call of the run fails with error `e`, then
`Update` returns `e` itself if the call is an unmount, a store update or a
probe, the new error `fmt.Errorf("Failed to format the device: %v", e)` if it
is the format, and the new error `fmt.Errorf("Failed to mount the device:
%v", e)` if it is the mount. -/
theorem error_propagation {σ : Type} (env : Env σ) (nodeID : String)
    (old new : DirectCSIDrive) (s : σ) :
    (∀ p e, Event.unmount p (some e) ∈ (Update env nodeID old new s).trace →
      (Update env nodeID old new s).err = some e) ∧
    (∀ d e, Event.update d (.error e) ∈ (Update env nodeID old new s).trace →
      (Update env nodeID old new s).err = some e) ∧
    (∀ p e, Event.statfs p (.error e) ∈ (Update env nodeID old new s).trace →
      (Update env nodeID old new s).err = some e) ∧
    (∀ p f force e, Event.format p f force (some e) ∈ (Update env nodeID old new s).trace →
      (Update env nodeID old new s).err = some ⟨"Failed to format the device: " ++ e.msg⟩) ∧
    (∀ p t f opts e, Event.mount p t f opts (some e) ∈ (Update env nodeID old new s).trace →
      (Update env nodeID old new s).err = some ⟨"Failed to mount the device: " ++ e.msg⟩) :=
  ⟨fun _ e h => failure_returned env nodeID old new s _ e h rfl,
   fun _ e h => failure_returned env nodeID old new s _ e h rfl,
   fun _ e h => failure_returned env nodeID old new s _ e h rfl,
   fun _ _ _ e h => failure_returned env nodeID old new s _ e h rfl,
   fun _ _ _ _ e h => failure_returned env nodeID old new s _ e h rfl⟩

/-- Witness of C9 as amended: the failing format of scenario 1. -/
theorem error_propagation_witness :
    Event.format "d1-path" "xfs" false (some ⟨"exit status 1"⟩) ∈
      (Update formatFails "node-1" d1 d1 0).trace ∧
    (Update formatFails "node-1" d1 d1 0).err =
      some ⟨"Failed to format the device: " ++ "exit status 1"⟩ :=
  ⟨by decide,
    (error_propagation formatFails "node-1" d1 d1 0).2.2.2.1 "d1-path" "xfs" false
      ⟨"exit status 1"⟩ (by decide)⟩

/-- Claim C10 (format failure is an abort): if the format primitive is reached
and fails with `e`, then `Update` returns a non-nil error (the wrapped `e`),
the failed format is the last call of the run (so no store update follows it)
and no mount or probe is made at all; the run is either the format alone, on
an unmounted drive, or, in the forced-unmount case, the unmount, the store
update of the input record with `Mountpoint == ""` and no other change, and
the format, that update being the only persisted one. -/
theorem format_failure_aborts {σ : Type} (env : Env σ) (nodeID : String)
    (old new : DirectCSIDrive) (s : σ) (p f : String) (force : Bool) (e : GoError)
    (h : Event.format p f force (some e) ∈ (Update env nodeID old new s).trace) :
    (Update env nodeID old new s).err ≠ none ∧
    (Update env nodeID old new s).err = some (Errorf "Failed to format the device: " e) ∧
    (∀ ev ∈ (Update env nodeID old new s).trace, ev.isMount = false ∧ ev.isStatfs = false) ∧
    ((new.Mountpoint = "" ∧
      (Update env nodeID old new s).trace = [Event.format p f force (some e)] ∧
      persisted (Update env nodeID old new s).trace = []) ∨
     (new.Mountpoint ≠ "" ∧ new.RequestedFormat.Force = true ∧ ∃ a new1,
      (Update env nodeID old new s).trace =
        [Event.unmount a none, Event.update { new with Mountpoint := "" } (.ok new1),
         Event.format p f force (some e)] ∧
      persisted (Update env nodeID old new s).trace = [{ new with Mountpoint := "" }])) := by
  have hu : ∀ {pre base}, unmountStage env new s pre base →
      Event.format p f force (some e) ∉ pre := fun h hm => by
    have := (unmountStage_mem h _ hm).1
    simp [Event.failure] at this
  have hfm : ∀ {pre base}, formatStage env new s pre base →
      Event.format p f force (some e) ∉ pre := fun h hm => by
    have := (formatStage_mem h _ hm).1
    simp [Event.failure] at this
  by_cases hg : passesGuards nodeID new
  · rcases Update_shapes env nodeID old new s hg with
      ⟨_, _, _, hU⟩ | ⟨_, _, _, _, hU⟩ | ⟨_, _, _, e1, _, hU⟩ | ⟨_, _, _, q, e1, s1, _, hU⟩ |
      ⟨_, _, _, q, e1, s1, _, hU⟩ | ⟨_, pre, base, e1, s1, hst, _, hU⟩ |
      ⟨_, pre, base, e1, s1, hst, _, hU⟩ | ⟨pre, base, hfst, hM⟩
    · rw [hU] at h; simp at h
    · rw [hU] at h; simp at h
    · rw [hU] at h; simp at h
    · rw [hU] at h; simp at h
    · rw [hU] at h; simp at h
    · rw [hU] at h ⊢
      simp only [List.mem_append, hu hst, List.mem_singleton, false_or, Event.format.injEq,
        Option.some.injEq] at h
      obtain ⟨rfl, rfl, rfl, rfl⟩ := h
      refine ⟨by simp, rfl, ?_, ?_⟩
      · intro ev hev
        simp only [List.mem_append, List.mem_singleton] at hev
        rcases hev with hev | rfl
        · exact (unmountStage_mem hst ev hev).2.2
        · simp [Event.isMount, Event.isStatfs]
      · rcases hst with ⟨hm, rfl, rfl⟩ | ⟨hm, hf, a, _, rfl⟩
        · exact Or.inl ⟨hm, by simp, by simp [persisted]⟩
        · exact Or.inr ⟨hm, hf, a, base, by simp [unmounted], by simp [persisted, unmounted]⟩
    · rw [hU] at h
      simp [hu hst] at h
    · rcases hM with ⟨_, s1, hU⟩ | ⟨_, e1, s1, hU⟩ | ⟨_, e1, s1, hU⟩ | ⟨_, st, e1, s1, hU⟩ |
        ⟨_, st, n1, s1, hU⟩
      · rw [hU] at h; exact absurd h (hfm hfst)
      · rw [hU] at h; simp [hfm hfst] at h
      · rw [hU] at h; simp [hfm hfst] at h
      · rw [hU] at h; simp [hfm hfst] at h
      · rw [hU] at h; simp [hfm hfst] at h
  · rw [Update_not_passing env nodeID old new s hg] at h
    simp at h

/-- Witness of C10: scenario 3 (forced unmount) with a failing format. -/
theorem format_failure_aborts_witness :
    Event.format "d3-path" "ext4" true (some ⟨"exit status 1"⟩) ∈
      (Update formatFails "node-1" d3 d3 0).trace ∧
    (Update formatFails "node-1" d3 d3 0).err ≠ none ∧
    (Update formatFails "node-1" d3 d3 0).err =
      some (Errorf "Failed to format the device: " ⟨"exit status 1"⟩) ∧
    (∀ ev ∈ (Update formatFails "node-1" d3 d3 0).trace,
      ev.isMount = false ∧ ev.isStatfs = false) ∧
    ((d3.Mountpoint = "" ∧
      (Update formatFails "node-1" d3 d3 0).trace =
        [Event.format "d3-path" "ext4" true (some ⟨"exit status 1"⟩)] ∧
      persisted (Update formatFails "node-1" d3 d3 0).trace = []) ∨
     (d3.Mountpoint ≠ "" ∧ d3.RequestedFormat.Force = true ∧ ∃ a new1,
      (Update formatFails "node-1" d3 d3 0).trace =
        [Event.unmount a none, Event.update { d3 with Mountpoint := "" } (.ok new1),
         Event.format "d3-path" "ext4" true (some ⟨"exit status 1"⟩)] ∧
      persisted (Update formatFails "node-1" d3 d3 0).trace = [{ d3 with Mountpoint := "" }])) :=
  ⟨by decide,
    format_failure_aborts formatFails "node-1" d3 d3 0 "d3-path" "ext4" true ⟨"exit status 1"⟩
      (by decide)⟩

/-! ## Forced unmount -/

/-- Claim C4, counterexample: a drive that passes the guards, mounted at the
relative path `data`, with `ext4` requested and `force` set, in a process
whose working directory cannot be read: `filepath.Abs` fails, `Update`
returns its error and the run is empty, so it does not start with an
unmount. -/
theorem forced_unmount_ordering_fails :
    passesGuards "node-1" d7 ∧ d7.RequestedFormat.Filesystem ≠ "" ∧ d7.Mountpoint ≠ "" ∧
    d7.RequestedFormat.Force = true ∧
    Update noCwd "node-1" d7 d7 0 = ⟨some ⟨"getwd: no such file or directory"⟩, [], 0⟩ ∧
    ¬ ∃ p res rest, (Update noCwd "node-1" d7 d7 0).trace = Event.unmount p res :: rest := by
  have h : Update noCwd "node-1" d7 d7 0 = ⟨some ⟨"getwd: no such file or directory"⟩, [], 0⟩ := by
    decide
  refine ⟨by decide, by decide, by decide, by decide, h, ?_⟩
  rintro ⟨p, res, rest, hp⟩
  rw [h] at hp
  cases hp

/-- Claim C4, amended: for a drive that passes the guards, with a requested
filesystem, a mountpoint and `force` set: if `filepath.Abs(Mountpoint)` fails,
`Update` returns that error and makes no call; if it gives `p` (as it always
does for a rooted `Mountpoint`, with `p = filepath.Clean(Mountpoint)`), the run
starts with the unmount at `p`, followed, if the unmount succeeded, by the
store update of the record with `Mountpoint == ""`; a failure of either ends
the run and is returned, and the format is called only after both succeeded,
as the third call and nowhere else. -/
theorem forced_unmount_ordering {σ : Type} (env : Env σ) (nodeID : String)
    (old new : DirectCSIDrive) (s : σ) (hg : passesGuards nodeID new)
    (hr : new.RequestedFormat.Filesystem ≠ "") (hm : new.Mountpoint ≠ "")
    (hf : new.RequestedFormat.Force = true) :
    (IsAbs new.Mountpoint = true →
      Abs (env.Getwd s) new.Mountpoint = .ok (Clean new.Mountpoint)) ∧
    (∀ e, Abs (env.Getwd s) new.Mountpoint = .error e →
      Update env nodeID old new s = ⟨some e, [], s⟩) ∧
    (∀ p, Abs (env.Getwd s) new.Mountpoint = .ok p →
      (∃ e, (Update env nodeID old new s).trace = [Event.unmount p (some e)] ∧
        (Update env nodeID old new s).err = some e) ∨
      (∃ e, (Update env nodeID old new s).trace =
          [Event.unmount p none, Event.update { new with Mountpoint := "" } (.error e)] ∧
        (Update env nodeID old new s).err = some e) ∨
      (∃ new1 res rest, (Update env nodeID old new s).trace =
          Event.unmount p none :: Event.update { new with Mountpoint := "" } (.ok new1) ::
            Event.format new1.Path new.RequestedFormat.Filesystem true res :: rest ∧
        ∀ ev ∈ rest, ev.isFormat = false)) := by
  have hstage : ∀ {pre base}, unmountStage env new s pre base →
      ∃ a, Abs (env.Getwd s) new.Mountpoint = .ok a ∧
        pre = [.unmount a none, .update (unmounted new) (.ok base)] := by
    intro pre base h
    rcases h with ⟨h, _⟩ | ⟨_, _, a, hA, hp⟩
    · exact absurd h hm
    · exact ⟨a, hA, hp⟩
  refine ⟨fun h => by simp [Abs, h], ?_⟩
  rcases Update_shapes env nodeID old new s hg with
    ⟨_, _, h, _⟩ | ⟨_, h, _⟩ | ⟨_, _, _, e1, hA, hU⟩ | ⟨_, _, _, q, e1, s1, hA, hU⟩ |
    ⟨_, _, _, q, e1, s1, hA, hU⟩ | ⟨_, pre, base, e1, s1, hst, _, hU⟩ |
    ⟨_, pre, base, e1, s1, hst, _, hU⟩ | ⟨pre, base, hfst, hM⟩
  · rw [hf] at h; exact absurd h (by decide)
  · exact absurd h hm
  · refine ⟨fun e he => ?_, fun p hp => ?_⟩
    · rw [hA] at he
      cases he
      exact hU
    · rw [hA] at hp; cases hp
  · refine ⟨fun e he => ?_, fun p hp => ?_⟩
    · rw [hA] at he; cases he
    · rw [hA] at hp
      cases hp
      exact Or.inl ⟨e1, by rw [hU], by rw [hU]⟩
  · refine ⟨fun e he => ?_, fun p hp => ?_⟩
    · rw [hA] at he; cases he
    · rw [hA] at hp
      cases hp
      exact Or.inr (Or.inl ⟨e1, by rw [hU]; rfl, by rw [hU]⟩)
  · obtain ⟨a, hA, rfl⟩ := hstage hst
    refine ⟨fun e he => ?_, fun p hp => ?_⟩
    · rw [hA] at he; cases he
    · rw [hA] at hp
      cases hp
      refine Or.inr (Or.inr ⟨base, some e1, [], ?_, by simp⟩)
      rw [hU, hf]
      rfl
  · obtain ⟨a, hA, rfl⟩ := hstage hst
    refine ⟨fun e he => ?_, fun p hp => ?_⟩
    · rw [hA] at he; cases he
    · rw [hA] at hp
      cases hp
      refine Or.inr (Or.inr ⟨base, none,
        [.update (formatted new.RequestedFormat.Filesystem base) (.error e1)], ?_, ?_⟩)
      · rw [hU, hf]
        rfl
      · simp [Event.isFormat]
  · rcases hfst with ⟨h, _⟩ | ⟨_, pre0, base0, hst, _, rfl⟩
    · exact absurd h hr
    · obtain ⟨a, hA, rfl⟩ := hstage hst
      refine ⟨fun e he => ?_, fun p hp => ?_⟩
      · rw [hA] at he; cases he
      · rw [hA] at hp
        cases hp
        refine Or.inr (Or.inr ?_)
        rcases hM with ⟨_, s1, hU⟩ | ⟨_, e1, s1, hU⟩ | ⟨_, e1, s1, hU⟩ | ⟨_, st, e1, s1, hU⟩ |
          ⟨_, st, n1, s1, hU⟩
        · exact ⟨base0, none,
            [.update (formatted new.RequestedFormat.Filesystem base0) (.ok base)],
            by rw [hU, hf]; rfl, by simp [Event.isFormat]⟩
        · exact ⟨base0, none,
            [.update (formatted new.RequestedFormat.Filesystem base0) (.ok base),
             .mount base.Path (mountTarget base) new.RequestedFormat.Filesystem
               base.RequestedFormat.Mountoptions (some e1)],
            by rw [hU, hf]; rfl, by simp [Event.isFormat]⟩
        · exact ⟨base0, none,
            [.update (formatted new.RequestedFormat.Filesystem base0) (.ok base),
             .mount base.Path (mountTarget base) new.RequestedFormat.Filesystem
               base.RequestedFormat.Mountoptions none,
             .statfs (mountTarget base) (.error e1)],
            by rw [hU, hf]; rfl, by simp [Event.isFormat]⟩
        · exact ⟨base0, none,
            [.update (formatted new.RequestedFormat.Filesystem base0) (.ok base),
             .mount base.Path (mountTarget base) new.RequestedFormat.Filesystem
               base.RequestedFormat.Mountoptions none,
             .statfs (mountTarget base) (.ok st),
             .update (probed st (mounted (mountTarget base) base)) (.error e1)],
            by rw [hU, hf]; rfl, by simp [Event.isFormat]⟩
        · exact ⟨base0, none,
            [.update (formatted new.RequestedFormat.Filesystem base0) (.ok base),
             .mount base.Path (mountTarget base) new.RequestedFormat.Filesystem
               base.RequestedFormat.Mountoptions none,
             .statfs (mountTarget base) (.ok st),
             .update (probed st (mounted (mountTarget base) base)) (.ok n1)],
            by rw [hU, hf]; rfl, by simp [Event.isFormat]⟩

/-- Witness of C4 as amended: scenario 3, a drive mounted at `/data` with
`ext4` requested and `force` set, in the healthy environment. -/
theorem forced_unmount_ordering_witness :
    passesGuards "node-1" d3 ∧ d3.RequestedFormat.Filesystem ≠ "" ∧ d3.Mountpoint ≠ "" ∧
    d3.RequestedFormat.Force = true ∧
    (IsAbs d3.Mountpoint = true →
      Abs (healthy.Getwd 0) d3.Mountpoint = .ok (Clean d3.Mountpoint)) ∧
    (∀ e, Abs (healthy.Getwd 0) d3.Mountpoint = .error e →
      Update healthy "node-1" d3 d3 0 = ⟨some e, [], 0⟩) ∧
    (∀ p, Abs (healthy.Getwd 0) d3.Mountpoint = .ok p →
      (∃ e, (Update healthy "node-1" d3 d3 0).trace = [Event.unmount p (some e)] ∧
        (Update healthy "node-1" d3 d3 0).err = some e) ∨
      (∃ e, (Update healthy "node-1" d3 d3 0).trace =
          [Event.unmount p none, Event.update { d3 with Mountpoint := "" } (.error e)] ∧
        (Update healthy "node-1" d3 d3 0).err = some e) ∨
      (∃ new1 res rest, (Update healthy "node-1" d3 d3 0).trace =
          Event.unmount p none :: Event.update { d3 with Mountpoint := "" } (.ok new1) ::
            Event.format new1.Path d3.RequestedFormat.Filesystem true res :: rest ∧
        ∀ ev ∈ rest, ev.isFormat = false)) :=
  ⟨by decide, by decide, by decide, by decide,
    forced_unmount_ordering healthy "node-1" d3 d3 0 (by decide) (by decide) (by decide)
      (by decide)⟩

/-! ## Unclaimed drives -/

/-- Claim C11 (unclaimed drives are never touched): for a record with
`DirectCSIOwned == false`, whatever its owner, status and request, `Update`
returns nil, makes no call and leaves the world as it was. -/
theorem unclaimed_untouched {σ : Type} (env : Env σ) (nodeID : String)
    (old new : DirectCSIDrive) (s : σ) (h : new.DirectCSIOwned = false) :
    Update env nodeID old new s = ⟨none, [], s⟩ :=
  Update_filtered env nodeID old new s (Or.inr (Or.inl h))

/-- Witness of C11: an unclaimed, mounted drive of the local node with a forced
`ext4` request. -/
theorem unclaimed_untouched_witness :
    d13.DirectCSIOwned = false ∧ Update healthy "node-1" d13 d13 0 = ⟨none, [], 0⟩ :=
  ⟨by decide, unclaimed_untouched healthy "node-1" d13 d13 0 (by decide)⟩

/-! ## One pass, no retry -/

/-- The kinds of the calls of a completed unmount step. -/
theorem unmountStage_kinds {σ : Type} {env : Env σ} {new : DirectCSIDrive} {s : σ}
    {pre : List Event} {base : DirectCSIDrive} (h : unmountStage env new s pre base) :
    pre.map Event.kind = [] ∨ pre.map Event.kind = [Kind.unmount, Kind.update] := by
  rcases h with ⟨_, rfl, _⟩ | ⟨_, _, p, _, rfl⟩
  · exact Or.inl rfl
  · exact Or.inr rfl

/-- The kinds of the calls of a completed format phase. -/
theorem formatStage_kinds {σ : Type} {env : Env σ} {new : DirectCSIDrive} {s : σ}
    {pre : List Event} {base : DirectCSIDrive} (h : formatStage env new s pre base) :
    pre.map Event.kind = [] ∨ pre.map Event.kind = [Kind.format, Kind.update] ∨
    pre.map Event.kind = [Kind.unmount, Kind.update, Kind.format, Kind.update] := by
  rcases h with ⟨_, rfl, _⟩ | ⟨_, pre0, base0, hst, _, rfl⟩
  · exact Or.inl rfl
  · rcases unmountStage_kinds hst with h0 | h0
    · exact Or.inr (Or.inl (by simp [h0, Event.kind]))
    · exact Or.inr (Or.inr (by simp [h0, Event.kind]))

/-- The kinds of the calls of a run are taken, in order, from `unmount, update,
format, update, mount, statfs, update`. -/
theorem Update_kinds {σ : Type} (env : Env σ) (nodeID : String)
    (old new : DirectCSIDrive) (s : σ) :
    List.Sublist ((Update env nodeID old new s).trace.map Event.kind)
      [Kind.unmount, Kind.update, Kind.format, Kind.update, Kind.mount, Kind.statfs,
       Kind.update] := by
  by_cases hg : passesGuards nodeID new
  · rcases Update_shapes env nodeID old new s hg with
      ⟨_, _, _, hU⟩ | ⟨_, _, _, _, hU⟩ | ⟨_, _, _, e1, _, hU⟩ | ⟨_, _, _, q, e1, s1, _, hU⟩ |
      ⟨_, _, _, q, e1, s1, _, hU⟩ | ⟨_, pre, base, e1, s1, hst, _, hU⟩ |
      ⟨_, pre, base, e1, s1, hst, _, hU⟩ | ⟨pre, base, hfst, hM⟩
    · rw [hU]
      simp only [List.map_cons, List.map_nil, Event.kind]
      decide
    · rw [hU]
      simp only [List.map_cons, List.map_nil, Event.kind]
      decide
    · rw [hU]
      simp only [List.map_cons, List.map_nil, Event.kind]
      decide
    · rw [hU]
      simp only [List.map_cons, List.map_nil, Event.kind]
      decide
    · rw [hU]
      simp only [List.map_cons, List.map_nil, Event.kind]
      decide
    · rw [hU]
      rcases unmountStage_kinds hst with h0 | h0 <;>
        · simp only [List.map_append, h0, List.map_cons, List.map_nil, Event.kind]
          decide
    · rw [hU]
      rcases unmountStage_kinds hst with h0 | h0 <;>
        · simp only [List.map_append, h0, List.map_cons, List.map_nil, Event.kind]
          decide
    · rcases hM with ⟨_, s1, hU⟩ | ⟨_, e1, s1, hU⟩ | ⟨_, e1, s1, hU⟩ | ⟨_, st, e1, s1, hU⟩ |
        ⟨_, st, n1, s1, hU⟩ <;>
      · rw [hU]
        rcases formatStage_kinds hfst with h0 | h0 | h0 <;>
          · simp only [List.map_append, h0, List.map_cons, List.map_nil, Event.kind]
            decide
  · rw [Update_not_passing env nodeID old new s hg]
    simp only [List.map_nil]
    decide

/-- No call of a run but the last one has failed. -/
theorem Update_failure_last {σ : Type} (env : Env σ) (nodeID : String)
    (old new : DirectCSIDrive) (s : σ) :
    ∀ ev ∈ (Update env nodeID old new s).trace.dropLast, ev.failure = none := by
  intro ev hev
  by_cases hg : passesGuards nodeID new
  · rcases Update_shapes env nodeID old new s hg with
      ⟨_, _, _, hU⟩ | ⟨_, _, _, _, hU⟩ | ⟨_, _, _, e1, _, hU⟩ | ⟨_, _, _, q, e1, s1, _, hU⟩ |
      ⟨_, _, _, q, e1, s1, _, hU⟩ | ⟨_, pre, base, e1, s1, hst, _, hU⟩ |
      ⟨_, pre, base, e1, s1, hst, _, hU⟩ | ⟨pre, base, hfst, hM⟩
    · rw [hU] at hev; simp at hev
    · rw [hU] at hev; simp at hev
    · rw [hU] at hev; simp at hev
    · rw [hU] at hev; simp at hev
    · rw [hU] at hev
      simp at hev
      subst hev
      rfl
    · rw [hU] at hev
      simp only [List.dropLast_concat] at hev
      exact (unmountStage_mem hst ev hev).1
    · rw [hU] at hev
      simp only [List.dropLast_append_cons, List.dropLast_cons₂, List.dropLast_single,
        List.mem_append, List.mem_singleton] at hev
      rcases hev with hev | rfl
      · exact (unmountStage_mem hst ev hev).1
      · rfl
    · rcases hM with ⟨_, s1, hU⟩ | ⟨_, e1, s1, hU⟩ | ⟨_, e1, s1, hU⟩ | ⟨_, st, e1, s1, hU⟩ |
        ⟨_, st, n1, s1, hU⟩
      · rw [hU] at hev
        exact (formatStage_mem hfst ev (List.mem_of_mem_dropLast hev)).1
      · rw [hU] at hev
        simp only [List.dropLast_concat] at hev
        exact (formatStage_mem hfst ev hev).1
      · rw [hU] at hev
        simp only [List.dropLast_append_cons, List.dropLast_cons₂, List.dropLast_single,
          List.mem_append, List.mem_singleton] at hev
        rcases hev with hev | rfl
        · exact (formatStage_mem hfst ev hev).1
        · rfl
      · rw [hU] at hev
        simp only [List.dropLast_append_cons, List.dropLast_cons₂, List.dropLast_single,
          List.mem_append, List.mem_cons, List.mem_singleton, List.not_mem_nil, or_false]
          at hev
        rcases hev with hev | rfl | rfl
        · exact (formatStage_mem hfst ev hev).1
        · rfl
        · rfl
      · rw [hU] at hev
        simp only [List.dropLast_append_cons, List.dropLast_cons₂, List.dropLast_single,
          List.mem_append, List.mem_cons, List.mem_singleton, List.not_mem_nil, or_false]
          at hev
        rcases hev with hev | rfl | rfl
        · exact (formatStage_mem hfst ev hev).1
        · rfl
        · rfl
  · rw [Update_not_passing env nodeID old new s hg] at hev
    simp at hev

/-- Claim C17 (no retry within one invocation): for every record and every
environment, the kinds of the calls of one run are taken, in order, from
`unmount, update, format, update, mount, statfs, update`; so unmount, format,
mount and statfs are called at most once each and the store is updated at most
three times; and no call but the last one of the run has failed. -/
theorem single_pass {σ : Type} (env : Env σ) (nodeID : String)
    (old new : DirectCSIDrive) (s : σ) :
    List.Sublist ((Update env nodeID old new s).trace.map Event.kind)
      [Kind.unmount, Kind.update, Kind.format, Kind.update, Kind.mount, Kind.statfs,
       Kind.update] ∧
    ((Update env nodeID old new s).trace.map Event.kind).count Kind.unmount ≤ 1 ∧
    ((Update env nodeID old new s).trace.map Event.kind).count Kind.format ≤ 1 ∧
    ((Update env nodeID old new s).trace.map Event.kind).count Kind.mount ≤ 1 ∧
    ((Update env nodeID old new s).trace.map Event.kind).count Kind.statfs ≤ 1 ∧
    ((Update env nodeID old new s).trace.map Event.kind).count Kind.update ≤ 3 ∧
    ∀ ev ∈ (Update env nodeID old new s).trace.dropLast, ev.failure = none := by
  have h := Update_kinds env nodeID old new s
  exact ⟨h, h.count_le _, h.count_le _, h.count_le _, h.count_le _, h.count_le _,
    Update_failure_last env nodeID old new s⟩

/-! ## The checkpoints -/

/-- Claim C13 (format checkpoint): whenever the format primitive succeeds, the
next call of the run is a store update, followed by no other store update
(by the mount, or by nothing); the record it submits is the record in hand
before the format (`base`: the input record, or the store's answer to the
unmount update) with `Filesystem` set to the requested filesystem,
`DriveStatus` to `New`, `RequestedFormat.Filesystem`, `Mountpoint` and
`MountOptions` cleared, and every other field as in `base`. -/
theorem format_checkpoint {σ : Type} (env : Env σ) (nodeID : String)
    (old new : DirectCSIDrive) (s : σ) (p f : String) (force : Bool)
    (h : Event.format p f force none ∈ (Update env nodeID old new s).trace) :
    ∃ pre base res rest, unmountStage env new s pre base ∧
      p = base.Path ∧ f = new.RequestedFormat.Filesystem ∧
      force = new.RequestedFormat.Force ∧
      (Update env nodeID old new s).trace =
        pre ++ Event.format p f force none ::
          Event.update
            { base with
              Filesystem := f
              DriveStatus := DriveStatus.New
              RequestedFormat := { base.RequestedFormat with Filesystem := "" }
              Mountpoint := ""
              MountOptions := [] } res :: rest ∧
      (rest = [] ∨ ∃ m rest1, rest = m :: rest1 ∧ m.isMount = true) := by
  have hu : ∀ {pre base}, unmountStage env new s pre base →
      Event.format p f force none ∉ pre := fun h hm => by
    have := (unmountStage_mem h _ hm).2.1
    simp [Event.isFormat] at this
  by_cases hg : passesGuards nodeID new
  · rcases Update_shapes env nodeID old new s hg with
      ⟨_, _, _, hU⟩ | ⟨_, _, _, _, hU⟩ | ⟨_, _, _, e1, _, hU⟩ | ⟨_, _, _, q, e1, s1, _, hU⟩ |
      ⟨_, _, _, q, e1, s1, _, hU⟩ | ⟨_, pre, base, e1, s1, hst, _, hU⟩ |
      ⟨_, pre, base, e1, s1, hst, _, hU⟩ | ⟨pre, base, hfst, hM⟩
    · rw [hU] at h; simp at h
    · rw [hU] at h; simp at h
    · rw [hU] at h; simp at h
    · rw [hU] at h; simp at h
    · rw [hU] at h; simp at h
    · rw [hU] at h
      simp [hu hst] at h
    · rw [hU] at h ⊢
      simp only [List.mem_append, hu hst, List.mem_cons, List.mem_singleton, false_or,
        Event.format.injEq, reduceCtorEq, List.not_mem_nil, or_false, and_true] at h
      obtain ⟨rfl, rfl, rfl⟩ := h
      exact ⟨pre, base, .error e1, [], hst, rfl, rfl, rfl, rfl, Or.inl rfl⟩
    · rcases hfst with ⟨_, rfl, rfl⟩ | ⟨_, pre0, base0, hst, _, rfl⟩
      · rcases hM with ⟨_, s1, hU⟩ | ⟨_, e1, s1, hU⟩ | ⟨_, e1, s1, hU⟩ |
          ⟨_, st, e1, s1, hU⟩ | ⟨_, st, n1, s1, hU⟩ <;>
        · rw [hU] at h
          simp at h
      · have key : ∀ tail : List Event, (∀ ev ∈ tail, ev.isFormat = false) →
            Event.format p f force none ∈
              (pre0 ++ [Event.format base0.Path new.RequestedFormat.Filesystem
                new.RequestedFormat.Force none,
                Event.update (formatted new.RequestedFormat.Filesystem base0) (.ok base)])
                ++ tail →
            p = base0.Path ∧ f = new.RequestedFormat.Filesystem ∧
              force = new.RequestedFormat.Force := by
          intro tail htail hin
          simp only [List.mem_append, hu hst, List.mem_cons, List.mem_singleton, false_or,
            Event.format.injEq, reduceCtorEq, List.not_mem_nil, or_false, and_true] at hin
          rcases hin with hin | hin
          · exact hin
          · have := htail _ hin
            simp [Event.isFormat] at this
        have hshape : ∀ tail : List Event,
            (pre0 ++ [Event.format base0.Path new.RequestedFormat.Filesystem
                new.RequestedFormat.Force none,
                Event.update (formatted new.RequestedFormat.Filesystem base0) (.ok base)])
                ++ tail =
            pre0 ++ Event.format base0.Path new.RequestedFormat.Filesystem
                new.RequestedFormat.Force none ::
              Event.update
                { base0 with
                  Filesystem := new.RequestedFormat.Filesystem
                  DriveStatus := DriveStatus.New
                  RequestedFormat := { base0.RequestedFormat with Filesystem := "" }
                  Mountpoint := ""
                  MountOptions := [] } (.ok base) :: tail := by
          intro tail
          simp [formatted]
        rcases hM with ⟨_, s1, hU⟩ | ⟨_, e1, s1, hU⟩ | ⟨_, e1, s1, hU⟩ |
          ⟨_, st, e1, s1, hU⟩ | ⟨_, st, n1, s1, hU⟩
        · rw [hU] at h ⊢
          obtain ⟨rfl, rfl, rfl⟩ := key [] (by simp) (by simpa using h)
          exact ⟨pre0, base0, .ok base, [], hst, rfl, rfl, rfl, by simpa using hshape [],
            Or.inl rfl⟩
        · rw [hU] at h ⊢
          obtain ⟨rfl, rfl, rfl⟩ := key _ (by simp [Event.isFormat]) h
          exact ⟨pre0, base0, .ok base, _, hst, rfl, rfl, rfl, hshape _,
            Or.inr ⟨_, _, rfl, rfl⟩⟩
        · rw [hU] at h ⊢
          obtain ⟨rfl, rfl, rfl⟩ := key _ (by simp [Event.isFormat]) h
          exact ⟨pre0, base0, .ok base, _, hst, rfl, rfl, rfl, hshape _,
            Or.inr ⟨_, _, rfl, rfl⟩⟩
        · rw [hU] at h ⊢
          obtain ⟨rfl, rfl, rfl⟩ := key _ (by simp [Event.isFormat]) h
          exact ⟨pre0, base0, .ok base, _, hst, rfl, rfl, rfl, hshape _,
            Or.inr ⟨_, _, rfl, rfl⟩⟩
        · rw [hU] at h ⊢
          obtain ⟨rfl, rfl, rfl⟩ := key _ (by simp [Event.isFormat]) h
          exact ⟨pre0, base0, .ok base, _, hst, rfl, rfl, rfl, hshape _,
            Or.inr ⟨_, _, rfl, rfl⟩⟩
  · rw [Update_not_passing env nodeID old new s hg] at h
    simp at h

/-- Witness of C13: scenario 3 in the healthy environment, where the format
follows the forced unmount. -/
theorem format_checkpoint_witness :
    Event.format "d3-path" "ext4" true none ∈ (Update healthy "node-1" d3 d3 0).trace ∧
    ∃ pre base res rest, unmountStage healthy d3 0 pre base ∧
      "d3-path" = base.Path ∧ "ext4" = d3.RequestedFormat.Filesystem ∧
      true = d3.RequestedFormat.Force ∧
      (Update healthy "node-1" d3 d3 0).trace =
        pre ++ Event.format "d3-path" "ext4" true none ::
          Event.update
            { base with
              Filesystem := "ext4"
              DriveStatus := DriveStatus.New
              RequestedFormat := { base.RequestedFormat with Filesystem := "" }
              Mountpoint := ""
              MountOptions := [] } res :: rest ∧
      (rest = [] ∨ ∃ m rest1, rest = m :: rest1 ∧ m.isMount = true) :=
  ⟨by decide, format_checkpoint healthy "node-1" d3 d3 0 "d3-path" "ext4" true (by decide)⟩

/-- Claim C14, counterexample: scenario 1 for a drive named `..`: the mount,
the probe and the store updates all succeed, no mountpoint is requested, and
the target given to mount and to statfs and persisted as `Mountpoint` is
`/mnt`, not `/mnt/direct-csi/..`. -/
theorem mount_checkpoint_fails :
    d9.RequestedFormat.Mountpoint = "" ∧
    (Update healthy "node-1" d9 d9 0).trace =
      [Event.format "d9-path" "xfs" false none,
       Event.update (formatted "xfs" d9) (.ok (formatted "xfs" d9)),
       Event.mount "d9-path" "/mnt" "xfs" [] none,
       Event.statfs "/mnt" (.ok ⟨4096, 1000⟩),
       Event.update (probed ⟨4096, 1000⟩ (mounted "/mnt" (formatted "xfs" d9)))
         (.ok (probed ⟨4096, 1000⟩ (mounted "/mnt" (formatted "xfs" d9))))] ∧
    (formatted "xfs" d9).Name = ".." ∧
    (lastState d9 (Update healthy "node-1" d9 d9 0).trace).Mountpoint = "/mnt" ∧
    "/mnt" ≠ "/mnt/direct-csi/" ++ (formatted "xfs" d9).Name := by
  decide

/-- Claim C14, amended: whenever the mount primitive and the probe both
succeed, they are followed by exactly one store update, which ends the run.
With `base` the record in hand before the mount, the target given to mount and
to statfs is `base.RequestedFormat.Mountpoint` if that is not empty and
`filepath.Join("/", "mnt", "direct-csi", base.Name)` otherwise, which is
`"/mnt/direct-csi/" + base.Name` when the name is a plain path component; the
record submitted is `base` with `Mountpoint` set to the target,
`RequestedFormat.Force`, `.Mountpoint` and `.Mountoptions` cleared and
`FreeCapacity` set from the probe, every other field as in `base`. -/
theorem mount_checkpoint {σ : Type} (env : Env σ) (nodeID : String)
    (old new : DirectCSIDrive) (s : σ) (dev t f : String) (opts : List String)
    (p : String) (stat : Statfs_t)
    (hm : Event.mount dev t f opts none ∈ (Update env nodeID old new s).trace)
    (h : Event.statfs p (.ok stat) ∈ (Update env nodeID old new s).trace) :
    ∃ pre base res, formatStage env new s pre base ∧
      t = p ∧
      t = (if base.RequestedFormat.Mountpoint = "" then
            Join ["/", "mnt", "direct-csi", base.Name]
          else base.RequestedFormat.Mountpoint) ∧
      (base.RequestedFormat.Mountpoint = "" → plainComponent base.Name →
        t = "/mnt/direct-csi/" ++ base.Name) ∧
      (Update env nodeID old new s).trace =
        pre ++ [Event.mount dev t f opts none, Event.statfs t (.ok stat),
          Event.update
            { base with
              Mountpoint := t
              FreeCapacity := freeCapacity stat
              RequestedFormat :=
                { base.RequestedFormat with
                  Force := false, Mountpoint := "", Mountoptions := [] } } res] := by
  have hname : ∀ base : DirectCSIDrive, base.RequestedFormat.Mountpoint = "" →
      plainComponent base.Name → mountTarget base = "/mnt/direct-csi/" ++ base.Name := by
    intro base h0 hn
    simp only [mountTarget, h0, ↓reduceIte]
    exact Join_default base.Name hn
  by_cases hg : passesGuards nodeID new
  · rcases Update_shapes env nodeID old new s hg with
      ⟨_, _, _, hU⟩ | ⟨_, _, _, _, hU⟩ | ⟨_, _, _, e, _, hU⟩ | ⟨_, _, _, q, e, s1, _, hU⟩ |
      ⟨_, _, _, q, e, s1, _, hU⟩ | ⟨_, pre, base, e, s1, hst, _, hU⟩ |
      ⟨_, pre, base, e, s1, hst, _, hU⟩ | ⟨pre, base, hfst, hM⟩
    · rw [hU] at h; simp at h
    · rw [hU] at h; simp at h
    · rw [hU] at h; simp at h
    · rw [hU] at h; simp at h
    · rw [hU] at h; simp at h
    · rw [hU] at h
      simp only [List.mem_append, List.mem_singleton, reduceCtorEq, or_false] at h
      have := (unmountStage_mem hst _ h).2.2.2
      simp [Event.isStatfs] at this
    · rw [hU] at h
      simp only [List.mem_append, List.mem_cons, List.mem_singleton, reduceCtorEq,
        List.not_mem_nil, or_false] at h
      have := (unmountStage_mem hst _ h).2.2.2
      simp [Event.isStatfs] at this
    · have hpre : Event.statfs p (.ok stat) ∉ pre := fun hin => by
        have := (formatStage_mem hfst _ hin).2.2
        simp [Event.isStatfs] at this
      have hpre2 : Event.mount dev t f opts none ∉ pre := fun hin => by
        have := (formatStage_mem hfst _ hin).2.1
        simp [Event.isMount] at this
      rcases hM with ⟨_, s1, hU⟩ | ⟨_, e, s1, hU⟩ | ⟨_, e, s1, hU⟩ | ⟨_, st, e, s1, hU⟩ |
        ⟨_, st, n1, s1, hU⟩
      · rw [hU] at h; exact absurd h hpre
      · rw [hU] at h; simp [hpre] at h
      · rw [hU] at h; simp [hpre] at h
      · rw [hU] at h hm ⊢
        simp only [List.mem_append, hpre, List.mem_cons, reduceCtorEq, Event.statfs.injEq,
          Except.ok.injEq, List.mem_singleton, false_or, or_false, List.not_mem_nil] at h
        simp only [List.mem_append, hpre2, List.mem_cons, reduceCtorEq, Event.mount.injEq,
          List.mem_singleton, false_or, or_false, List.not_mem_nil, and_true] at hm
        obtain ⟨rfl, rfl⟩ := h
        obtain ⟨rfl, rfl, rfl, rfl⟩ := hm
        exact ⟨pre, base, .error e, hfst, rfl, rfl, hname base, rfl⟩
      · rw [hU] at h hm ⊢
        simp only [List.mem_append, hpre, List.mem_cons, reduceCtorEq, Event.statfs.injEq,
          Except.ok.injEq, List.mem_singleton, false_or, or_false, List.not_mem_nil] at h
        simp only [List.mem_append, hpre2, List.mem_cons, reduceCtorEq, Event.mount.injEq,
          List.mem_singleton, false_or, or_false, List.not_mem_nil, and_true] at hm
        obtain ⟨rfl, rfl⟩ := h
        obtain ⟨rfl, rfl, rfl, rfl⟩ := hm
        exact ⟨pre, base, .ok n1, hfst, rfl, rfl, hname base, rfl⟩
  · rw [Update_not_passing env nodeID old new s hg] at h
    simp at h

/-- Witness of C14 as amended: scenario 1 with the mountpoint `/srv`
requested, in the healthy environment. -/
theorem mount_checkpoint_witness :
    Event.mount "d12-path" "/srv" "xfs" [] none ∈ (Update healthy "node-1" d12 d12 0).trace ∧
    Event.statfs "/srv" (.ok ⟨4096, 1000⟩) ∈ (Update healthy "node-1" d12 d12 0).trace ∧
    ∃ pre base res, formatStage healthy d12 0 pre base ∧
      "/srv" = "/srv" ∧
      "/srv" = (if base.RequestedFormat.Mountpoint = "" then
            Join ["/", "mnt", "direct-csi", base.Name]
          else base.RequestedFormat.Mountpoint) ∧
      (base.RequestedFormat.Mountpoint = "" → plainComponent base.Name →
        "/srv" = "/mnt/direct-csi/" ++ base.Name) ∧
      (Update healthy "node-1" d12 d12 0).trace =
        pre ++ [Event.mount "d12-path" "/srv" "xfs" [] none,
          Event.statfs "/srv" (.ok ⟨4096, 1000⟩),
          Event.update
            { base with
              Mountpoint := "/srv"
              FreeCapacity := freeCapacity ⟨4096, 1000⟩
              RequestedFormat :=
                { base.RequestedFormat with
                  Force := false, Mountpoint := "", Mountoptions := [] } } res] :=
  ⟨by decide, by decide,
    mount_checkpoint healthy "node-1" d12 d12 0 "d12-path" "/srv" "xfs" [] "/srv"
      ⟨4096, 1000⟩ (by decide) (by decide)⟩

/-! ## The arguments of the mount -/

/-- Claim C12, counterexample: a mount-only request (`/srv`) on an unmounted
drive formatted with `xfs`: the record in hand at the mount is the input
record, whose `Filesystem` is `xfs`, and mount is called with the empty
filesystem type. -/
theorem mount_arguments_fails :
    d10.RequestedFormat.Filesystem = "" ∧ d10.RequestedFormat.Mountpoint ≠ "" ∧
    d10.Mountpoint = "" ∧ d10.Filesystem = "xfs" ∧
    (Update healthy "node-1" d10 d10 0).trace =
      [Event.mount "d10-path" "/srv" "" [] none,
       Event.statfs "/srv" (.ok ⟨4096, 1000⟩),
       Event.update (probed ⟨4096, 1000⟩ (mounted "/srv" d10))
         (.ok (probed ⟨4096, 1000⟩ (mounted "/srv" d10)))] ∧
    "" ≠ d10.Filesystem := by
  decide

/-- Claim C12, amended: whenever `Update` invokes the mount primitive, the
filesystem-type argument is the filesystem requested in the input record
(`RequestedFormat.Filesystem` at entry), the device argument is the `Path` of
the record in hand after the format phase (`base`) and the options argument
is its `RequestedFormat.Mountoptions`. For a mount-only request the record in
hand is the input record and the filesystem type is empty; after a format
phase whose calls all succeeded, the store answering with the submitted
records, the filesystem type is also the `Filesystem` of the record in hand. -/
theorem mount_arguments {σ : Type} (env : Env σ) (nodeID : String)
    (old new : DirectCSIDrive) (s : σ) (dev t f : String) (opts : List String)
    (r : Option GoError)
    (h : Event.mount dev t f opts r ∈ (Update env nodeID old new s).trace) :
    f = new.RequestedFormat.Filesystem ∧
    ∃ pre base rest, formatStage env new s pre base ∧
      (Update env nodeID old new s).trace = pre ++ Event.mount dev t f opts r :: rest ∧
      dev = base.Path ∧ t = mountTarget base ∧ opts = base.RequestedFormat.Mountoptions ∧
      (new.RequestedFormat.Filesystem = "" → base = new ∧ f = "") ∧
      (new.RequestedFormat.Filesystem ≠ "" → (∀ ev ∈ pre, ev.succeeded = true) →
        base.Filesystem = f) := by
  have hfs : ∀ {pre base}, formatStage env new s pre base →
      (new.RequestedFormat.Filesystem = "" → base = new) ∧
      (new.RequestedFormat.Filesystem ≠ "" → (∀ ev ∈ pre, ev.succeeded = true) →
        base.Filesystem = new.RequestedFormat.Filesystem) := by
    intro pre base hst
    rcases hst with ⟨h0, _, hb⟩ | ⟨h0, pre0, base0, _, _, rfl⟩
    · exact ⟨fun _ => hb, fun h1 => absurd h0 h1⟩
    · refine ⟨fun h1 => absurd h1 h0, fun _ hs => ?_⟩
      have := hs (.update (formatted new.RequestedFormat.Filesystem base0) (.ok base))
        (by simp)
      simp only [Event.succeeded, decide_eq_true_eq] at this
      rw [this]
      rfl
  by_cases hg : passesGuards nodeID new
  · rcases Update_shapes env nodeID old new s hg with
      ⟨_, _, _, hU⟩ | ⟨_, _, _, _, hU⟩ | ⟨_, _, _, e, _, hU⟩ | ⟨_, _, _, q, e, s1, _, hU⟩ |
      ⟨_, _, _, q, e, s1, _, hU⟩ | ⟨_, pre, base, e, s1, hst, _, hU⟩ |
      ⟨_, pre, base, e, s1, hst, _, hU⟩ | ⟨pre, base, hfst, hM⟩
    · rw [hU] at h; simp at h
    · rw [hU] at h; simp at h
    · rw [hU] at h; simp at h
    · rw [hU] at h; simp at h
    · rw [hU] at h; simp at h
    · rw [hU] at h
      simp only [List.mem_append, List.mem_singleton, reduceCtorEq, or_false] at h
      have := (unmountStage_mem hst _ h).2.2.1
      simp [Event.isMount] at this
    · rw [hU] at h
      simp only [List.mem_append, List.mem_cons, List.mem_singleton, reduceCtorEq,
        List.not_mem_nil, or_false] at h
      have := (unmountStage_mem hst _ h).2.2.1
      simp [Event.isMount] at this
    · have hpre : Event.mount dev t f opts r ∉ pre := fun hin => by
        have := (formatStage_mem hfst _ hin).2.1
        simp [Event.isMount] at this
      obtain ⟨hA, hB⟩ := hfs hfst
      rcases hM with ⟨_, s1, hU⟩ | ⟨_, e, s1, hU⟩ | ⟨_, e, s1, hU⟩ | ⟨_, st, e, s1, hU⟩ |
        ⟨_, st, n1, s1, hU⟩
      · rw [hU] at h; exact absurd h hpre
      all_goals
        rw [hU] at h ⊢
        simp only [List.mem_append, hpre, List.mem_cons, reduceCtorEq, Event.mount.injEq,
          List.mem_singleton, false_or, or_false, List.not_mem_nil] at h
        obtain ⟨rfl, rfl, rfl, rfl, rfl⟩ := h
        exact ⟨rfl, pre, base, _, hfst, rfl, rfl, rfl, rfl,
          fun h0 => ⟨hA h0, h0⟩, hB⟩
  · rw [Update_not_passing env nodeID old new s hg] at h
    simp at h

/-- Witness of C12 as amended: the mount of scenario 1 in the healthy
environment. -/
theorem mount_arguments_witness :
    Event.mount "d1-path" "/mnt/direct-csi/d1" "xfs" [] none ∈
      (Update healthy "node-1" d1 d1 0).trace ∧
    "xfs" = d1.RequestedFormat.Filesystem ∧
    ∃ pre base rest, formatStage healthy d1 0 pre base ∧
      (Update healthy "node-1" d1 d1 0).trace =
        pre ++ Event.mount "d1-path" "/mnt/direct-csi/d1" "xfs" [] none :: rest ∧
      "d1-path" = base.Path ∧ "/mnt/direct-csi/d1" = mountTarget base ∧
      [] = base.RequestedFormat.Mountoptions ∧
      (d1.RequestedFormat.Filesystem = "" → base = d1 ∧ "xfs" = "") ∧
      (d1.RequestedFormat.Filesystem ≠ "" → (∀ ev ∈ pre, ev.succeeded = true) →
        base.Filesystem = "xfs") :=
  ⟨by decide,
    mount_arguments healthy "node-1" d1 d1 0 "d1-path" "/mnt/direct-csi/d1" "xfs" [] none
      (by decide)⟩

/-! ## Terminal state and redelivery -/

/-- The accepted records of two runs of calls in a row. -/
theorem persisted_append (a b : List Event) :
    persisted (a ++ b) = persisted a ++ persisted b := by
  induction a with
  | nil => rfl
  | cons ev a ih =>
    cases ev with
    | update d r => cases r <;> simp [persisted, ih]
    | unmount _ _ => simp [persisted, ih]
    | format _ _ _ _ => simp [persisted, ih]
    | mount _ _ _ _ _ => simp [persisted, ih]
    | statfs _ _ => simp [persisted, ih]

/-- Claim C15, counterexample: a mount-only request (`/srv`) on a drive that
is mounted at `/data` passes the guards and meets no validation abort;
`Update` returns nil without a single call (so no call has failed), and the
drive's last persisted state, the input record, still carries the requested
mountpoint. -/
theorem terminal_state_fails :
    passesGuards "node-1" d8 ∧ ¬ validationAbort d8 ∧
    (∀ ev ∈ (Update healthy "node-1" d8 d8 0).trace, ev.succeeded = true) ∧
    Update healthy "node-1" d8 d8 0 = ⟨none, [], 0⟩ ∧
    lastState d8 (Update healthy "node-1" d8 d8 0).trace = d8 ∧
    (lastState d8 (Update healthy "node-1" d8 d8 0).trace).RequestedFormat.Mountpoint
      = "/srv" ∧
    (lastState d8 (Update healthy "node-1" d8 d8 0).trace).RequestedFormat
      ≠ ⟨"", "", [], false⟩ := by
  decide

/-- Claim C15, amended: for a drive that passes the guards, meets no validation
abort and is not a mount-only request on a mounted drive (a filesystem is
requested or `Mountpoint == ""`), if every call of the run succeeds, the store
answering with the submitted records, and `Update` returns nil, then the
drive's last persisted state has every `requestedFormat` field cleared, and a
further `Update` on that state, in any environment, makes no call and returns
nil. -/
theorem terminal_state {σ : Type} (env : Env σ) (nodeID : String)
    (old new : DirectCSIDrive) (s : σ) (hg : passesGuards nodeID new)
    (hv : ¬ validationAbort new)
    (hmt : new.RequestedFormat.Filesystem ≠ "" ∨ new.Mountpoint = "")
    (hsucc : ∀ ev ∈ (Update env nodeID old new s).trace, ev.succeeded = true)
    (hnil : (Update env nodeID old new s).err = none) :
    (lastState new (Update env nodeID old new s).trace).RequestedFormat
      = ⟨"", "", [], false⟩ ∧
    ∀ (τ : Type) (env2 : Env τ) (nodeID2 : String) (old2 : DirectCSIDrive) (s2 : τ),
      Update env2 nodeID2 old2 (lastState new (Update env nodeID old new s).trace) s2
        = ⟨none, [], s2⟩ := by
  have hquiet : ∀ d : DirectCSIDrive, d.RequestedFormat = ⟨"", "", [], false⟩ →
      ∀ (τ : Type) (env2 : Env τ) (nodeID2 : String) (old2 : DirectCSIDrive) (s2 : τ),
        Update env2 nodeID2 old2 d s2 = ⟨none, [], s2⟩ := fun d hd τ env2 nodeID2 old2 s2 =>
    Update_filtered env2 nodeID2 old2 d s2 (Or.inr (Or.inr (Or.inl (by simp [hd]))))
  suffices hmain : (lastState new (Update env nodeID old new s).trace).RequestedFormat
      = ⟨"", "", [], false⟩ from ⟨hmain, hquiet _ hmain⟩
  have hbase : ∀ {pre base}, formatStage env new s pre base →
      (∀ ev ∈ pre, ev.succeeded = true) →
      base.RequestedFormat.Filesystem = "" ∧ base.Mountpoint = "" := by
    intro pre base hst hs
    rcases hst with ⟨h0, _, rfl⟩ | ⟨h0, pre0, base0, _, _, rfl⟩
    · rcases hmt with h1 | h1
      · exact absurd h0 h1
      · exact ⟨h0, h1⟩
    · have := hs (.update (formatted new.RequestedFormat.Filesystem base0) (.ok base))
        (by simp)
      simp only [Event.succeeded, decide_eq_true_eq] at this
      rw [this]
      exact ⟨rfl, rfl⟩
  rcases Update_shapes env nodeID old new s hg with
    ⟨h1, h2, h3, _⟩ | ⟨h1, _, h2, h3, _⟩ | ⟨_, _, _, e, _, hU⟩ | ⟨_, _, _, q, e, s1, _, hU⟩ |
    ⟨_, _, _, q, e, s1, _, hU⟩ | ⟨_, pre, base, e, s1, hst, _, hU⟩ |
    ⟨_, pre, base, e, s1, hst, _, hU⟩ | ⟨pre, base, hfst, hM⟩
  · exact absurd ⟨h1, h3, Or.inl h2⟩ hv
  · exact absurd ⟨h1, h3, Or.inr h2⟩ hv
  · rw [hU] at hnil; cases hnil
  · rw [hU] at hnil; cases hnil
  · rw [hU] at hnil; cases hnil
  · rw [hU] at hnil; cases hnil
  · rw [hU] at hnil; cases hnil
  · rcases hM with ⟨hm, s1, hU⟩ | ⟨_, e, s1, hU⟩ | ⟨_, e, s1, hU⟩ | ⟨_, st, e, s1, hU⟩ |
      ⟨_, st, n1, s1, hU⟩
    · rw [hU] at hsucc
      exact absurd (hbase hfst hsucc).2 hm
    · rw [hU] at hnil; cases hnil
    · rw [hU] at hnil; cases hnil
    · rw [hU] at hnil; cases hnil
    · rw [hU] at hsucc ⊢
      have hb := hbase hfst (fun ev hev => hsucc ev (List.mem_append_left _ hev))
      simp only [lastState, persisted_append, persisted]
      simp [probed, mounted, hb.1]

/-- Witness of C15 as amended: scenario 3 (forced unmount, format, mount) in
the healthy environment. -/
theorem terminal_state_witness :
    passesGuards "node-1" d3 ∧ ¬ validationAbort d3 ∧
    (d3.RequestedFormat.Filesystem ≠ "" ∨ d3.Mountpoint = "") ∧
    (∀ ev ∈ (Update healthy "node-1" d3 d3 0).trace, ev.succeeded = true) ∧
    (Update healthy "node-1" d3 d3 0).err = none ∧
    (lastState d3 (Update healthy "node-1" d3 d3 0).trace).RequestedFormat
      = ⟨"", "", [], false⟩ ∧
    ∀ (τ : Type) (env2 : Env τ) (nodeID2 : String) (old2 : DirectCSIDrive) (s2 : τ),
      Update env2 nodeID2 old2 (lastState d3 (Update healthy "node-1" d3 d3 0).trace) s2
        = ⟨none, [], s2⟩ :=
  ⟨by decide, by decide, by decide, by decide, by decide,
    terminal_state healthy "node-1" d3 d3 0 (by decide) (by decide) (by decide) (by decide)
      (by decide)⟩

/-- The format checkpoint of a request without a mountpoint is stopped by the
filter of lines 69-71, whatever the environment. -/
theorem checkpoint_filtered {σ : Type} (env : Env σ) (nodeID : String)
    (old base : DirectCSIDrive) (f : String) (s : σ)
    (h : base.RequestedFormat.Mountpoint = "") :
    Update env nodeID old (formatted f base) s = ⟨none, [], s⟩ :=
  Update_filtered env nodeID old (formatted f base) s
    (Or.inr (Or.inr (Or.inl ⟨rfl, h⟩)))

/-- Claim C16, evaluated: scenario 1 (`xfs` requested, no mountpoint) in an
environment whose mount fails: the first run formats, persists the format
checkpoint and fails at the mount; a second run on the persisted checkpoint
record, in the healthy environment, returns nil without a single call, so the
mount is not invoked again. With the mountpoint `/srv` requested, the second
run on the checkpoint does invoke the mount. In general, in every environment,
a run on the format checkpoint of a request without a mountpoint makes no
call. -/
theorem redelivery_after_mount_failure :
    ((Update mountFails "node-1" d1 d1 0).trace =
      [Event.format "d1-path" "xfs" false none,
       Event.update (formatted "xfs" d1) (.ok (formatted "xfs" d1)),
       Event.mount "d1-path" "/mnt/direct-csi/d1" "xfs" [] (some ⟨"exit status 32"⟩)] ∧
    (Update mountFails "node-1" d1 d1 0).err =
      some ⟨"Failed to mount the device: exit status 32"⟩ ∧
    lastState d1 (Update mountFails "node-1" d1 d1 0).trace = formatted "xfs" d1 ∧
    (formatted "xfs" d1).Mountpoint = "" ∧
    Update healthy "node-1" d1 (formatted "xfs" d1) 3 = ⟨none, [], 3⟩ ∧
    lastState d12 (Update mountFails "node-1" d12 d12 0).trace = formatted "xfs" d12 ∧
    (Update healthy "node-1" d12 (formatted "xfs" d12) 3).trace =
      [Event.mount "d12-path" "/srv" "" [] none,
       Event.statfs "/srv" (.ok ⟨4096, 1000⟩),
       Event.update (probed ⟨4096, 1000⟩ (mounted "/srv" (formatted "xfs" d12)))
         (.ok (probed ⟨4096, 1000⟩ (mounted "/srv" (formatted "xfs" d12))))]) ∧
    ∀ (σ : Type) (env : Env σ) (nodeID : String) (old base : DirectCSIDrive) (f : String)
      (s : σ), base.RequestedFormat.Mountpoint = "" →
      Update env nodeID old (formatted f base) s = ⟨none, [], s⟩ := by
  refine ⟨by decide, ?_⟩
  intro σ env nodeID old base f s h
  exact checkpoint_filtered env nodeID old base f s h

/-! ## Probe failure -/

/-- Claim C18 (probe failure after a successful mount): if the probe fails
with `e`, then `Update` returns `e`; the run ends with the successful mount at
the target and the failed probe of the target, so nothing is persisted after
the mount; the drive's last persisted state has `Mountpoint == ""`, and its
`RequestedFormat.Mountpoint`, `.Mountoptions` and `.Force` are still those of
the record in hand before the format (`hand`: the input record, or the store's
answer to the unmount update), which are those of the input record when the
store answered the earlier updates with the submitted records. -/
theorem probe_failure {σ : Type} (env : Env σ) (nodeID : String)
    (old new : DirectCSIDrive) (s : σ) (p : String) (e : GoError)
    (h : Event.statfs p (.error e) ∈ (Update env nodeID old new s).trace) :
    (Update env nodeID old new s).err = some e ∧
    ∃ pre base hand, formatStage env new s pre base ∧
      (Update env nodeID old new s).trace =
        pre ++ [Event.mount base.Path p new.RequestedFormat.Filesystem
          base.RequestedFormat.Mountoptions none, Event.statfs p (.error e)] ∧
      p = mountTarget base ∧
      persisted (Update env nodeID old new s).trace = persisted pre ∧
      (lastState new (Update env nodeID old new s).trace).Mountpoint = "" ∧
      (hand = new ∨ ∃ pre0, unmountStage env new s pre0 hand) ∧
      (lastState new (Update env nodeID old new s).trace).RequestedFormat.Mountpoint
        = hand.RequestedFormat.Mountpoint ∧
      (lastState new (Update env nodeID old new s).trace).RequestedFormat.Mountoptions
        = hand.RequestedFormat.Mountoptions ∧
      (lastState new (Update env nodeID old new s).trace).RequestedFormat.Force
        = hand.RequestedFormat.Force ∧
      ((∀ ev ∈ pre, ev.succeeded = true) →
        hand.RequestedFormat.Mountpoint = new.RequestedFormat.Mountpoint ∧
        hand.RequestedFormat.Mountoptions = new.RequestedFormat.Mountoptions ∧
        hand.RequestedFormat.Force = new.RequestedFormat.Force) := by
  by_cases hg : passesGuards nodeID new
  · rcases Update_shapes env nodeID old new s hg with
      ⟨_, _, _, hU⟩ | ⟨_, _, _, _, hU⟩ | ⟨_, _, _, e1, _, hU⟩ | ⟨_, _, _, q, e1, s1, _, hU⟩ |
      ⟨_, _, _, q, e1, s1, _, hU⟩ | ⟨_, pre, base, e1, s1, hst, _, hU⟩ |
      ⟨_, pre, base, e1, s1, hst, _, hU⟩ | ⟨pre, base, hfst, hM⟩
    · rw [hU] at h; simp at h
    · rw [hU] at h; simp at h
    · rw [hU] at h; simp at h
    · rw [hU] at h; simp at h
    · rw [hU] at h; simp at h
    · rw [hU] at h
      simp only [List.mem_append, List.mem_singleton, reduceCtorEq, or_false] at h
      have := (unmountStage_mem hst _ h).2.2.2
      simp [Event.isStatfs] at this
    · rw [hU] at h
      simp only [List.mem_append, List.mem_cons, List.mem_singleton, reduceCtorEq,
        List.not_mem_nil, or_false] at h
      have := (unmountStage_mem hst _ h).2.2.2
      simp [Event.isStatfs] at this
    · have hpre : Event.statfs p (.error e) ∉ pre := fun hin => by
        have := (formatStage_mem hfst _ hin).2.2
        simp [Event.isStatfs] at this
      rcases hM with ⟨_, s1, hU⟩ | ⟨_, e1, s1, hU⟩ | ⟨hm, e1, s1, hU⟩ | ⟨_, st, e1, s1, hU⟩ |
        ⟨_, st, n1, s1, hU⟩
      · rw [hU] at h; exact absurd h hpre
      · rw [hU] at h; simp [hpre] at h
      · rw [hU] at h ⊢
        simp only [List.mem_append, hpre, List.mem_cons, reduceCtorEq, Event.statfs.injEq,
          Except.error.injEq, List.mem_singleton, false_or, or_false, List.not_mem_nil] at h
        obtain ⟨rfl, rfl⟩ := h
        refine ⟨rfl, pre, base, ?_⟩
        have hp : persisted (pre ++ [Event.mount base.Path (mountTarget base)
            new.RequestedFormat.Filesystem base.RequestedFormat.Mountoptions none,
            Event.statfs (mountTarget base) (.error e)]) = persisted pre := by
          simp [persisted_append, persisted]
        rcases hfst with ⟨h0, rfl, rfl⟩ | ⟨h0, pre0, base0, hst, hn, rfl⟩
        · refine ⟨base, Or.inl ⟨h0, rfl, rfl⟩, rfl, rfl, hp, ?_, Or.inl rfl, ?_, ?_, ?_,
            fun _ => ⟨rfl, rfl, rfl⟩⟩ <;>
            simp [lastState, persisted, hm]
        · have hl : lastState new (pre0 ++ [Event.format base0.Path
              new.RequestedFormat.Filesystem new.RequestedFormat.Force none,
              Event.update (formatted new.RequestedFormat.Filesystem base0) (.ok base)] ++
              [Event.mount base.Path (mountTarget base) new.RequestedFormat.Filesystem
                base.RequestedFormat.Mountoptions none,
               Event.statfs (mountTarget base) (.error e)])
              = formatted new.RequestedFormat.Filesystem base0 := by
            simp [lastState, persisted_append, persisted]
          refine ⟨base0, Or.inr ⟨h0, pre0, base0, hst, hn, rfl⟩, rfl, rfl, hp, ?_,
            Or.inr ⟨pre0, hst⟩, ?_, ?_, ?_, ?_⟩
          · rw [hl]; rfl
          · rw [hl]; rfl
          · rw [hl]; rfl
          · rw [hl]; rfl
          · intro hs
            rcases hst with ⟨_, _, rfl⟩ | ⟨_, _, a, _, rfl⟩
            · exact ⟨rfl, rfl, rfl⟩
            · have := hs (.update (unmounted new) (.ok base0)) (by simp)
              simp only [Event.succeeded, decide_eq_true_eq] at this
              rw [this]
              exact ⟨rfl, rfl, rfl⟩
      · rw [hU] at h; simp [hpre] at h
      · rw [hU] at h; simp [hpre] at h
  · rw [Update_not_passing env nodeID old new s hg] at h
    simp at h

/-- Witness of C18: scenario 3 (forced unmount, format, mount) in an
environment whose probe fails. -/
theorem probe_failure_witness :
    Event.statfs "/mnt/direct-csi/d3" (.error ⟨"input/output error"⟩) ∈
      (Update probeFails "node-1" d3 d3 0).trace ∧
    (Update probeFails "node-1" d3 d3 0).err = some ⟨"input/output error"⟩ ∧
    ∃ pre base hand, formatStage probeFails d3 0 pre base ∧
      (Update probeFails "node-1" d3 d3 0).trace =
        pre ++ [Event.mount base.Path "/mnt/direct-csi/d3" d3.RequestedFormat.Filesystem
          base.RequestedFormat.Mountoptions none,
          Event.statfs "/mnt/direct-csi/d3" (.error ⟨"input/output error"⟩)] ∧
      "/mnt/direct-csi/d3" = mountTarget base ∧
      persisted (Update probeFails "node-1" d3 d3 0).trace = persisted pre ∧
      (lastState d3 (Update probeFails "node-1" d3 d3 0).trace).Mountpoint = "" ∧
      (hand = d3 ∨ ∃ pre0, unmountStage probeFails d3 0 pre0 hand) ∧
      (lastState d3 (Update probeFails "node-1" d3 d3 0).trace).RequestedFormat.Mountpoint
        = hand.RequestedFormat.Mountpoint ∧
      (lastState d3 (Update probeFails "node-1" d3 d3 0).trace).RequestedFormat.Mountoptions
        = hand.RequestedFormat.Mountoptions ∧
      (lastState d3 (Update probeFails "node-1" d3 d3 0).trace).RequestedFormat.Force
        = hand.RequestedFormat.Force ∧
      ((∀ ev ∈ pre, ev.succeeded = true) →
        hand.RequestedFormat.Mountpoint = d3.RequestedFormat.Mountpoint ∧
        hand.RequestedFormat.Mountoptions = d3.RequestedFormat.Mountoptions ∧
        hand.RequestedFormat.Force = d3.RequestedFormat.Force) :=
  ⟨by decide,
    probe_failure probeFails "node-1" d3 d3 0 "/mnt/direct-csi/d3" ⟨"input/output error"⟩
      (by decide)⟩

/-! ## Mount options -/

/-- Claim C19, counterexample: scenario 1 with a store that answers every
update with the submitted record in which `MountOptions` is `["noatime"]`:
the record submitted by the last store update carries `MountOptions ==
["noatime"]`, which is neither the input record's `MountOptions` nor empty. -/
theorem mount_options_frame_fails :
    d1.MountOptions = [] ∧
    (persisted (Update rewritingStore "node-1" d1 d1 0).trace).map
      DirectCSIDrive.MountOptions = [[], ["noatime"]] ∧
    (lastState d1 (Update rewritingStore "node-1" d1 d1 0).trace).MountOptions
      ≠ d1.MountOptions ∧
    (lastState d1 (Update rewritingStore "node-1" d1 d1 0).trace).MountOptions ≠ [] := by
  decide

/-- The `MountOptions` of every record a run submits. -/
theorem submitted_mountOptions {σ : Type} (env : Env σ) (nodeID : String)
    (old new : DirectCSIDrive) (s : σ) (sub : DirectCSIDrive)
    (res : Except GoError DirectCSIDrive)
    (h : Event.update sub res ∈ (Update env nodeID old new s).trace) :
    (sub.MountOptions = [] ∨ sub.MountOptions = new.MountOptions ∨
      ∃ d prev, Event.update d (.ok prev) ∈ (Update env nodeID old new s).trace ∧
        sub.MountOptions = prev.MountOptions) ∧
    ((∀ d r, Event.update d (.ok r) ∈ (Update env nodeID old new s).trace → r = d) →
      sub.MountOptions = new.MountOptions ∨ sub.MountOptions = []) := by
  have hus : ∀ {pre base}, unmountStage env new s pre base → Event.update sub res ∈ pre →
      sub.MountOptions = new.MountOptions := by
    intro pre base hst hin
    rcases hst with ⟨_, rfl, _⟩ | ⟨_, _, a, _, rfl⟩
    · simp at hin
    · simp only [List.mem_cons, reduceCtorEq, Event.update.injEq, List.mem_singleton,
        List.not_mem_nil, or_false, false_or] at hin
      rw [hin.1]
      rfl
  have hfs : ∀ {pre base}, formatStage env new s pre base → Event.update sub res ∈ pre →
      sub.MountOptions = new.MountOptions ∨ sub.MountOptions = [] := by
    intro pre base hst hin
    rcases hst with ⟨_, rfl, _⟩ | ⟨_, pre0, base0, hst0, _, rfl⟩
    · simp at hin
    · simp only [List.mem_append, List.mem_cons, reduceCtorEq, Event.update.injEq,
        List.mem_singleton, List.not_mem_nil, or_false, false_or] at hin
      rcases hin with hin | hin
      · exact Or.inl (hus hst0 hin)
      · rw [hin.1]
        exact Or.inr rfl
  have hbase : ∀ {pre base} (tail : List Event), formatStage env new s pre base →
      (base.MountOptions = new.MountOptions ∨
        ∃ d, Event.update d (.ok base) ∈ pre ++ tail) ∧
      ((∀ d r, Event.update d (.ok r) ∈ pre ++ tail → r = d) →
        base.MountOptions = new.MountOptions ∨ base.MountOptions = []) := by
    intro pre base tail hst
    rcases hst with ⟨_, rfl, rfl⟩ | ⟨_, pre0, base0, hst0, _, rfl⟩
    · exact ⟨Or.inl rfl, fun _ => Or.inl rfl⟩
    · refine ⟨Or.inr ⟨formatted new.RequestedFormat.Filesystem base0, by simp⟩, fun hf => ?_⟩
      have := hf (formatted new.RequestedFormat.Filesystem base0) base (by simp)
      rw [this]
      exact Or.inr rfl
  by_cases hg : passesGuards nodeID new
  · rcases Update_shapes env nodeID old new s hg with
      ⟨_, _, _, hU⟩ | ⟨_, _, _, _, hU⟩ | ⟨_, _, _, e1, _, hU⟩ | ⟨_, _, _, q, e1, s1, _, hU⟩ |
      ⟨_, _, _, q, e1, s1, _, hU⟩ | ⟨_, pre, base, e1, s1, hst, _, hU⟩ |
      ⟨_, pre, base, e1, s1, hst, _, hU⟩ | ⟨pre, base, hfst, hM⟩
    · rw [hU] at h; simp at h
    · rw [hU] at h; simp at h
    · rw [hU] at h; simp at h
    · rw [hU] at h; simp at h
    · rw [hU] at h
      simp only [List.mem_cons, reduceCtorEq, Event.update.injEq, List.mem_singleton,
        List.not_mem_nil, or_false, false_or] at h
      have : sub.MountOptions = new.MountOptions := by rw [h.1]; rfl
      exact ⟨Or.inr (Or.inl this), fun _ => Or.inl this⟩
    · rw [hU] at h
      simp only [List.mem_append, List.mem_singleton, reduceCtorEq, or_false] at h
      have := hus hst h
      exact ⟨Or.inr (Or.inl this), fun _ => Or.inl this⟩
    · rw [hU] at h
      simp only [List.mem_append, List.mem_cons, reduceCtorEq, Event.update.injEq,
        List.mem_singleton, List.not_mem_nil, or_false, false_or] at h
      rcases h with h | h
      · have := hus hst h
        exact ⟨Or.inr (Or.inl this), fun _ => Or.inl this⟩
      · have : sub.MountOptions = [] := by rw [h.1]; rfl
        exact ⟨Or.inl this, fun _ => Or.inr this⟩
    · have hin_pre : Event.update sub res ∈ pre →
          (sub.MountOptions = [] ∨ sub.MountOptions = new.MountOptions ∨
            ∃ d prev, Event.update d (.ok prev) ∈ (Update env nodeID old new s).trace ∧
              sub.MountOptions = prev.MountOptions) ∧
          ((∀ d r, Event.update d (.ok r) ∈ (Update env nodeID old new s).trace → r = d) →
            sub.MountOptions = new.MountOptions ∨ sub.MountOptions = []) := by
        intro hin
        rcases hfs hfst hin with h0 | h0
        · exact ⟨Or.inr (Or.inl h0), fun _ => Or.inl h0⟩
        · exact ⟨Or.inl h0, fun _ => Or.inr h0⟩
      rcases hM with ⟨_, s1, hU⟩ | ⟨_, e1, s1, hU⟩ | ⟨_, e1, s1, hU⟩ | ⟨_, st, e1, s1, hU⟩ |
        ⟨_, st, n1, s1, hU⟩
      · exact hin_pre (by rw [hU] at h; exact h)
      · refine hin_pre ?_
        rw [hU] at h
        simpa using h
      · refine hin_pre ?_
        rw [hU] at h
        simpa using h
      · rw [hU] at h
        simp only [List.mem_append, List.mem_cons, reduceCtorEq, Event.update.injEq,
          List.mem_singleton, List.not_mem_nil, or_false, false_or] at h
        rcases h with h | h
        · exact hin_pre h
        · have hsub : sub.MountOptions = base.MountOptions := by rw [h.1]; rfl
          rw [hU, hsub]
          obtain ⟨hA, hB⟩ := hbase _ hfst
          refine ⟨?_, hB⟩
          rcases hA with hA | ⟨d, hd⟩
          · exact Or.inr (Or.inl hA)
          · exact Or.inr (Or.inr ⟨d, base, hd, rfl⟩)
      · rw [hU] at h
        simp only [List.mem_append, List.mem_cons, reduceCtorEq, Event.update.injEq,
          List.mem_singleton, List.not_mem_nil, or_false, false_or] at h
        rcases h with h | h
        · exact hin_pre h
        · have hsub : sub.MountOptions = base.MountOptions := by rw [h.1]; rfl
          rw [hU, hsub]
          obtain ⟨hA, hB⟩ := hbase _ hfst
          refine ⟨?_, hB⟩
          rcases hA with hA | ⟨d, hd⟩
          · exact Or.inr (Or.inl hA)
          · exact Or.inr (Or.inr ⟨d, base, hd, rfl⟩)
  · rw [Update_not_passing env nodeID old new s hg] at h
    simp at h

/-- After a format and a mount in a run whose calls all succeeded, the store
answering with the submitted records: the options of the mount and the
options left in the last persisted state. -/
theorem format_and_mount_options {σ : Type} (env : Env σ) (nodeID : String)
    (old new : DirectCSIDrive) (s : σ) (dev t f : String) (opts : List String)
    (r : Option GoError)
    (h : Event.mount dev t f opts r ∈ (Update env nodeID old new s).trace)
    (hfs : new.RequestedFormat.Filesystem ≠ "")
    (hsucc : ∀ ev ∈ (Update env nodeID old new s).trace, ev.succeeded = true) :
    opts = new.RequestedFormat.Mountoptions ∧
    (lastState new (Update env nodeID old new s).trace).MountOptions = [] ∧
    (lastState new (Update env nodeID old new s).trace).RequestedFormat.Mountoptions = [] := by
  by_cases hg : passesGuards nodeID new
  · rcases Update_shapes env nodeID old new s hg with
      ⟨_, _, _, hU⟩ | ⟨_, _, _, _, hU⟩ | ⟨_, _, _, e1, _, hU⟩ | ⟨_, _, _, q, e1, s1, _, hU⟩ |
      ⟨_, _, _, q, e1, s1, _, hU⟩ | ⟨_, pre, base, e1, s1, hst, _, hU⟩ |
      ⟨_, pre, base, e1, s1, hst, _, hU⟩ | ⟨pre, base, hfst, hM⟩
    · rw [hU] at h; simp at h
    · rw [hU] at h; simp at h
    · rw [hU] at h; simp at h
    · rw [hU] at h; simp at h
    · rw [hU] at h; simp at h
    · exfalso
      rw [hU] at hsucc
      have := hsucc (.format base.Path new.RequestedFormat.Filesystem
        new.RequestedFormat.Force (some e1)) (by simp)
      simp [Event.succeeded] at this
    · exfalso
      rw [hU] at hsucc
      have := hsucc (.update (formatted new.RequestedFormat.Filesystem base) (.error e1))
        (by simp)
      simp [Event.succeeded] at this
    · have hpre : Event.mount dev t f opts r ∉ pre := fun hin => by
        have := (formatStage_mem hfst _ hin).2.1
        simp [Event.isMount] at this
      rcases hM with ⟨_, s1, hU⟩ | ⟨_, e1, s1, hU⟩ | ⟨_, e1, s1, hU⟩ | ⟨_, st, e1, s1, hU⟩ |
        ⟨_, st, n1, s1, hU⟩
      · rw [hU] at h; exact absurd h hpre
      · exfalso
        rw [hU] at hsucc
        have := hsucc (.mount base.Path (mountTarget base) new.RequestedFormat.Filesystem
          base.RequestedFormat.Mountoptions (some e1)) (by simp)
        simp [Event.succeeded] at this
      · exfalso
        rw [hU] at hsucc
        have := hsucc (.statfs (mountTarget base) (.error e1)) (by simp)
        simp [Event.succeeded] at this
      · exfalso
        rw [hU] at hsucc
        have := hsucc (.update (probed st (mounted (mountTarget base) base)) (.error e1))
          (by simp)
        simp [Event.succeeded] at this
      · rw [hU] at h hsucc ⊢
        simp only [List.mem_append, hpre, List.mem_cons, reduceCtorEq, Event.mount.injEq,
          List.mem_singleton, false_or, or_false, List.not_mem_nil] at h
        obtain ⟨rfl, rfl, rfl, rfl, rfl⟩ := h
        rcases hfst with ⟨h0, _, _⟩ | ⟨_, pre0, base0, hst0, _, rfl⟩
        · exact absurd h0 hfs
        · have hb : base = formatted new.RequestedFormat.Filesystem base0 := by
            have := hsucc (.update (formatted new.RequestedFormat.Filesystem base0)
              (.ok base)) (by simp)
            simpa [Event.succeeded] using this
          have hb0 : base0.RequestedFormat.Mountoptions = new.RequestedFormat.Mountoptions := by
            rcases hst0 with ⟨_, _, rfl⟩ | ⟨_, _, a, _, rfl⟩
            · rfl
            · have := hsucc (.update (unmounted new) (.ok base0)) (by simp)
              simp only [Event.succeeded, decide_eq_true_eq] at this
              rw [this]
              rfl
          subst hb
          refine ⟨hb0, ?_, ?_⟩ <;>
            simp [lastState, persisted_append, persisted, probed, mounted, formatted]
  · rw [Update_not_passing env nodeID old new s hg] at h
    simp at h

/-- A submitted record of a framed run takes its `MountOptions` from the
allowed ones or from a record the store returned before it. -/
theorem optionsFramed_split (pre : List Event) :
    ∀ (allowed : List (List String)) (sub : DirectCSIDrive)
      (res : Except GoError DirectCSIDrive) (rest : List Event),
      optionsFramed allowed (pre ++ Event.update sub res :: rest) →
      sub.MountOptions ∈ allowed ∨
        ∃ d prev, Event.update d (.ok prev) ∈ pre ∧ sub.MountOptions = prev.MountOptions := by
  induction pre with
  | nil =>
    intro allowed sub res rest h
    cases res with
    | error e => exact Or.inl h.1
    | ok prev => exact Or.inl h.1
  | cons ev pre ih =>
    intro allowed sub res rest h
    have lift : (∃ d prev, Event.update d (.ok prev) ∈ pre ∧
        sub.MountOptions = prev.MountOptions) →
        ∃ d prev, Event.update d (.ok prev) ∈ ev :: pre ∧
          sub.MountOptions = prev.MountOptions := fun ⟨d, prev, hin, he⟩ =>
      ⟨d, prev, List.mem_cons_of_mem _ hin, he⟩
    cases ev with
    | unmount _ _ => exact (ih allowed sub res rest h).imp_right lift
    | format _ _ _ _ => exact (ih allowed sub res rest h).imp_right lift
    | mount _ _ _ _ _ => exact (ih allowed sub res rest h).imp_right lift
    | statfs _ _ => exact (ih allowed sub res rest h).imp_right lift
    | update d r =>
      cases r with
      | error e => exact (ih allowed sub res rest h.2).imp_right lift
      | ok prev =>
        rcases ih (prev.MountOptions :: allowed) sub res rest h.2 with h0 | h0
        · rcases List.mem_cons.1 h0 with h1 | h1
          · exact Or.inr ⟨d, prev, List.mem_cons_self _ _, h1⟩
          · exact Or.inl h1
        · exact Or.inr (lift h0)

/-- Every run is framed by the empty options and the input record's. -/
theorem Update_optionsFramed {σ : Type} (env : Env σ) (nodeID : String)
    (old new : DirectCSIDrive) (s : σ) :
    optionsFramed [[], new.MountOptions] (Update env nodeID old new s).trace := by
  by_cases hg : passesGuards nodeID new
  · rcases Update_shapes env nodeID old new s hg with
      ⟨_, _, _, hU⟩ | ⟨_, _, _, _, hU⟩ | ⟨_, _, _, e1, _, hU⟩ | ⟨_, _, _, q, e1, s1, _, hU⟩ |
      ⟨_, _, _, q, e1, s1, _, hU⟩ | ⟨_, pre, base, e1, s1, hst, _, hU⟩ |
      ⟨_, pre, base, e1, s1, hst, _, hU⟩ | ⟨pre, base, hfst, hM⟩
    · rw [hU]; trivial
    · rw [hU]; trivial
    · rw [hU]; trivial
    · rw [hU]; trivial
    · rw [hU]; simp [optionsFramed, unmounted]
    · rw [hU]
      rcases hst with ⟨_, rfl, _⟩ | ⟨_, _, a, _, rfl⟩ <;>
        simp [optionsFramed, unmounted]
    · rw [hU]
      rcases hst with ⟨_, rfl, _⟩ | ⟨_, _, a, _, rfl⟩ <;>
        simp [optionsFramed, unmounted, formatted]
    · rcases hM with ⟨_, s1, hU⟩ | ⟨_, e1, s1, hU⟩ | ⟨_, e1, s1, hU⟩ | ⟨_, st, e1, s1, hU⟩ |
        ⟨_, st, n1, s1, hU⟩ <;>
      · rw [hU]
        rcases hfst with ⟨_, rfl, rfl⟩ | ⟨_, pre0, base0, hst, _, rfl⟩
        · simp [optionsFramed, probed, mounted]
        · rcases hst with ⟨_, rfl, _⟩ | ⟨_, _, a, _, rfl⟩ <;>
            simp [optionsFramed, unmounted, formatted, probed, mounted]
  · rw [Update_not_passing env nodeID old new s hg]
    trivial

/-- Claim C19, amended: in every record that `Update` submits to the store,
`MountOptions` is empty, or the input record's `MountOptions`, or the
`MountOptions` of a record the store returned earlier in the run, in answer to
a store update that precedes this one in the trace; so, when the store
answers every update with the submitted record, it is the input record's
`MountOptions` or empty. Consequently, after a format and a mount in a run
whose calls all succeeded (the store answering with the submitted records),
mount was called with the requested `Mountoptions`, and the last persisted
record has `MountOptions` empty and `RequestedFormat.Mountoptions` empty. -/
theorem mount_options_frame {σ : Type} (env : Env σ) (nodeID : String)
    (old new : DirectCSIDrive) (s : σ) :
    (∀ pre sub res rest,
      (Update env nodeID old new s).trace = pre ++ Event.update sub res :: rest →
      sub.MountOptions = [] ∨ sub.MountOptions = new.MountOptions ∨
      ∃ d prev, Event.update d (.ok prev) ∈ pre ∧ sub.MountOptions = prev.MountOptions) ∧
    ((∀ d r, Event.update d (.ok r) ∈ (Update env nodeID old new s).trace → r = d) →
      ∀ sub res, Event.update sub res ∈ (Update env nodeID old new s).trace →
        sub.MountOptions = new.MountOptions ∨ sub.MountOptions = []) ∧
    (new.RequestedFormat.Filesystem ≠ "" →
      (∀ ev ∈ (Update env nodeID old new s).trace, ev.succeeded = true) →
      ∀ dev t f opts r, Event.mount dev t f opts r ∈ (Update env nodeID old new s).trace →
        opts = new.RequestedFormat.Mountoptions ∧
        (lastState new (Update env nodeID old new s).trace).MountOptions = [] ∧
        (lastState new (Update env nodeID old new s).trace).RequestedFormat.Mountoptions
          = []) := by
  refine ⟨fun pre sub res rest h => ?_,
    fun hf sub res h => (submitted_mountOptions env nodeID old new s sub res h).2 hf,
    fun hfs hsucc dev t f opts r h =>
      format_and_mount_options env nodeID old new s dev t f opts r h hfs hsucc⟩
  have hfr := Update_optionsFramed env nodeID old new s
  rw [h] at hfr
  rcases optionsFramed_split pre _ sub res rest hfr with h0 | h0
  · simp only [List.mem_cons, List.mem_singleton, List.not_mem_nil, or_false] at h0
    rcases h0 with h0 | h0
    · exact Or.inl h0
    · exact Or.inr (Or.inl h0)
  · exact Or.inr (Or.inr h0)

/-- Witness of C19 as amended: scenario 1 with the options `["noatime"]`
requested, in the healthy environment: the mount gets them, and the last
persisted record has none, applied or requested; and the last store update of
scenario 1 with the store that rewrites `MountOptions`, whose record carries
the options the store returned for the format checkpoint. -/
theorem mount_options_frame_witness :
    (d11.RequestedFormat.Filesystem ≠ "" ∧
    (∀ ev ∈ (Update healthy "node-1" d11 d11 0).trace, ev.succeeded = true) ∧
    Event.mount "d11-path" "/mnt/direct-csi/d11" "xfs" ["noatime"] none ∈
      (Update healthy "node-1" d11 d11 0).trace ∧
    ["noatime"] = d11.RequestedFormat.Mountoptions ∧
    (lastState d11 (Update healthy "node-1" d11 d11 0).trace).MountOptions = [] ∧
    (lastState d11 (Update healthy "node-1" d11 d11 0).trace).RequestedFormat.Mountoptions
      = []) ∧
    ((Update rewritingStore "node-1" d1 d1 0).trace =
      rewritingPrefix ++ Event.update rewritingLast (.ok (rewritten rewritingLast)) :: [] ∧
    (rewritingLast.MountOptions = [] ∨ rewritingLast.MountOptions = d1.MountOptions ∨
      ∃ d prev, Event.update d (.ok prev) ∈ rewritingPrefix ∧
        rewritingLast.MountOptions = prev.MountOptions)) :=
  ⟨⟨by decide, by decide, by decide,
    (mount_options_frame healthy "node-1" d11 d11 0).2.2 (by decide) (by decide)
      "d11-path" "/mnt/direct-csi/d11" "xfs" ["noatime"] none (by decide)⟩,
   by decide,
   (mount_options_frame rewritingStore "node-1" d1 d1 0).1 rewritingPrefix rewritingLast
     (.ok (rewritten rewritingLast)) [] (by decide)⟩

end DirectCSI
